import Mathlib

/-!
Verification development for the kitten-wa core: the per-session connection
state machine (Client) and the process-wide plugin manager (matcher compiler,
event buckets, dispatch, hot reload, background session sync).

The connection state machine is embedded as an explicit step relation on a
record of the Client's fields; each step is one synchronous segment of the
source between suspension points.  The plugin manager is embedded as pure
functions on registry/bucket records.
-/

namespace KittenWA

/-- Connection lifecycle states (`ConnectionState` in the source). -/
inductive ConnState
  | disconnected
  | connecting
  | connected
  | reconnecting
deriving DecidableEq, Repr

/-- Lifecycle phase of the currently held socket handle: `absent` (no socket,
or released by cleanup), `pre` (constructed with listeners attached but not
yet open), `opened`, `closed` (the transport reported a close). -/
inductive SockPhase
  | absent
  | pre
  | opened
  | closed
deriving DecidableEq, Repr

/-- An error used to reject the pending connect deferred: either a typed
`ConnectionError` carrying `statusCode` and `recoverable`, or a plain
`Error`. -/
inductive RejErr
  | connErr (message : String) (statusCode : Option Nat) (recoverable : Bool)
  | plainErr (message : String)
deriving DecidableEq, Repr

/-- The Client's mutable fields that the claims are about.  `socketsCreated`
counts successful socket constructions (for the single-flight claim);
`waiting` models a pending reconnect backoff timer; `registered` models
membership of this client in the static Session Registry. -/
structure CState where
  connState : ConnState
  sockPhase : SockPhase
  socketsCreated : Nat
  reconnectAttempts : Nat
  hasConnectedOnce : Bool
  isShuttingDown : Bool
  pendingConnect : Bool
  registered : Bool
  sessionDeleted : Bool
  waiting : Bool
  maxRetries : Nat
  sync : Bool
deriving DecidableEq, Repr

/-- Observable effects of one step: the `stateChange` pairs emitted by
`#setState`, resolution/rejection of the pending connect deferred, the
backoff delay handed to the reconnect timer, and the attempt count carried
by a `reconnect` notification. -/
structure Effects where
  pairs : List (ConnState × ConnState)
  resolvedOk : Bool
  rejected : Option RejErr
  scheduledDelay : Option Nat
  reconnectNote : Option Nat
deriving DecidableEq, Repr

def noEff : Effects :=
  { pairs := [], resolvedOk := false, rejected := none,
    scheduledDelay := none, reconnectNote := none }

/-- `Client.#setState`: records a `stateChange` (oldState, newState) pair
unless the new state equals the old one. -/
def setState (n : ConnState) (se : CState × Effects) : CState × Effects :=
  if se.1.connState = n then se
  else ({ se.1 with connState := n },
        { se.2 with pairs := se.2.pairs ++ [(se.1.connState, n)] })

/-- `Client.#resolvePending` with a value: resolves the pending deferred if
one exists, otherwise does nothing. -/
def resolveOk (se : CState × Effects) : CState × Effects :=
  if se.1.pendingConnect then
    ({ se.1 with pendingConnect := false }, { se.2 with resolvedOk := true })
  else se

/-- `Client.#resolvePending` with an error: rejects the pending deferred if
one exists, otherwise does nothing. -/
def rejectPending (err : RejErr) (se : CState × Effects) : CState × Effects :=
  if se.1.pendingConnect then
    ({ se.1 with pendingConnect := false }, { se.2 with rejected := some err })
  else se

/-- Numeric status codes of the external transport's `DisconnectReason` enum
(the source keys its handler table by them): connectionClosed 428,
restartRequired 515, timedOut 408, connectionLost 408, unavailableService
503, loggedOut 401, forbidden 403. -/
def drConnectionClosed : Nat := 428
def drRestartRequired : Nat := 515
def drTimedOut : Nat := 408
def drConnectionLost : Nat := 408
def drUnavailableService : Nat := 503
def drLoggedOut : Nat := 401
def drForbidden : Nat := 403

/-- Classification record held by the `DISCONNECT_HANDLERS` table
(`deleteSession` defaults to false in the source literals). -/
structure DisconnectInfo where
  message : String
  recoverable : Bool
  deleteSession : Bool
deriving DecidableEq, Repr

/-- The `DISCONNECT_HANDLERS` entries in source order. -/
def disconnectHandlers : List (Nat × DisconnectInfo) :=
  [(drConnectionClosed, ⟨"Connection closed", true, false⟩),
   (drRestartRequired, ⟨"QR Scanned", true, false⟩),
   (drTimedOut, ⟨"Connection timed out", true, false⟩),
   (drConnectionLost, ⟨"Connection lost", true, false⟩),
   (drUnavailableService, ⟨"Service unavailable", true, false⟩),
   (drLoggedOut, ⟨"Session logged out", true, true⟩),
   (drForbidden, ⟨"Account banned", false, true⟩),
   (405, ⟨"Not logged in", true, true⟩)]

/-- Lookup with JS `Map` construction semantics: inserting an existing key
overwrites the earlier value, so the last pair with the key wins. -/
def mapLookup (k : Nat) (l : List (Nat × DisconnectInfo)) : Option DisconnectInfo :=
  (l.reverse.find? (fun p => p.1 == k)).map (fun p => p.2)

/-- `Client.#parseDisconnectReason`: classify by status code via the handler
table; an unrecognized (or missing) code is recoverable without session
deletion. -/
def parseDisconnectReason (statusCode : Option Nat) : DisconnectInfo :=
  match statusCode.bind (fun c => mapLookup c disconnectHandlers) with
  | none => ⟨"Unknown disconnect reason", true, false⟩
  | some h => h

/-- The default backoff function: `min(1000 * 2 ** (attempt - 1), 60000)`
milliseconds.  The source only invokes it with attempt >= 1 (the counter is
incremented before the call). -/
def defaultBackoff (attempt : Nat) : Nat := min (1000 * 2 ^ (attempt - 1)) 60000

/-- `Client.#scheduleReconnect` up to the cancelable wait: increment the
attempt counter; when it exceeds `maxRetries`, finalize fatally (state
Disconnected, pending deferred rejected with a non-recoverable
ConnectionError); otherwise enter Reconnecting (only once the session has
connected before) and start the backoff timer with delay
`backoff(attempts)`. -/
def scheduleReconnect (backoff : Nat → Nat) (se : CState × Effects) : CState × Effects :=
  let s := { se.1 with reconnectAttempts := se.1.reconnectAttempts + 1 }
  if s.maxRetries < s.reconnectAttempts then
    let se := setState .disconnected (s, se.2)
    rejectPending (.connErr
      ("Max reconnection attempts (" ++ toString s.maxRetries ++ ") exceeded")
      none false) se
  else
    let se := if s.hasConnectedOnce then setState .reconnecting (s, se.2) else (s, se.2)
    ({ se.1 with waiting := true },
     { se.2 with scheduledDelay := some (backoff s.reconnectAttempts) })

/-- `Client.#onConnectionOpen`: enter Connected, register in the Session
Registry, reset the attempt counter; after a Reconnecting phase emit the
reconnect notification carrying the attempt count, otherwise mark the first
successful connect and resolve the pending deferred. -/
def onConnectionOpen (se : CState × Effects) : CState × Effects :=
  let wasReconnecting : Bool := se.1.connState == .reconnecting
  let se := setState .connected se
  let s := { se.1 with registered := true, sockPhase := .opened }
  let attempts := s.reconnectAttempts
  let s := { s with reconnectAttempts := 0 }
  if wasReconnecting then
    (s, { se.2 with reconnectNote := some attempts })
  else
    resolveOk ({ s with hasConnectedOnce := true }, se.2)

/-- `Client.#onConnectionClose`: classify the close, unregister from the
Session Registry, delete the persisted session when flagged, finalize to
Disconnected with a typed rejection when non-recoverable (or when shutting
down), otherwise schedule a reconnect. -/
def onConnectionClose (backoff : Nat → Nat) (statusCode : Option Nat)
    (se : CState × Effects) : CState × Effects :=
  let info := parseDisconnectReason statusCode
  let s := { se.1 with registered := false }
  let s := if info.deleteSession then { s with sessionDeleted := true } else s
  if !info.recoverable || se.1.isShuttingDown then
    let se := setState .disconnected (s, se.2)
    rejectPending (.connErr info.message statusCode info.recoverable) se
  else
    scheduleReconnect backoff (s, se.2)

/-- Outcome of the guard cascade at the top of `Client.connect()`. -/
inductive ConnectOutcome
  | errShuttingDown
  | immediate
  | pendingPromise
  | newAttempt
deriving DecidableEq, Repr

/-- The guard cascade of `Client.connect()`: fail while shutting down, return
`{sock, session, id}` immediately when Connected, return the in-flight
deferred's promise when one exists, otherwise start a new attempt. -/
def connectOutcome (s : CState) : ConnectOutcome :=
  if s.isShuttingDown then .errShuttingDown
  else if s.connState = .connected then .immediate
  else if s.pendingConnect then .pendingPromise
  else .newAttempt

/-- `Client.#createSocket`: release the previous socket (cleanup) then, when
the external `initSession` call succeeds, install a fresh socket with
listeners attached.  `createOk` is the outcome of that external call. -/
def createSocket (createOk : Bool) (s : CState) : CState :=
  let s := { s with sockPhase := .absent }
  if createOk then { s with sockPhase := .pre, socketsCreated := s.socketsCreated + 1 }
  else s

/-- `Client.#initConnection`: enter Connecting, reset the attempt counter,
install the pending deferred, then attempt socket creation; a creation
failure finalizes to Disconnected and rejects the deferred with the thrown
error. -/
def initConnection (createOk : Bool) (se : CState × Effects) : CState × Effects :=
  let se := setState .connecting se
  let s := { se.1 with reconnectAttempts := 0, pendingConnect := true }
  if createOk then (createSocket true s, se.2)
  else
    let s := createSocket false s
    let se := setState .disconnected (s, se.2)
    rejectPending (.plainErr "initSession failed") se

/-- The externally triggered atomic segments of the Client: a `connect()`
call (with the socket-creation outcome), the transport's open / close /
pairing-offer notifications, expiry of the reconnect timer (with the
subsequent socket-creation outcome), and a `disconnect()` call. -/
inductive CEvent
  | connectCall (createOk : Bool)
  | openEvent
  | closeEvent (statusCode : Option Nat)
  | waitDone (createOk : Bool)
  | disconnectCall
  | qrEvent
deriving DecidableEq, Repr

def sockLive (s : CState) : Bool := s.sockPhase == .pre || s.sockPhase == .opened

/-- One atomic step of the Client.  Socket lifecycle notifications are
enabled only for the currently held socket (open and pairing offers only
before it has opened), matching the transport's event order; the
`#handleConnectionUpdate` shutting-down guard is included. -/
def step (backoff : Nat → Nat) : CEvent → CState → CState × Effects
  | .connectCall createOk, s =>
    match connectOutcome s with
    | .newAttempt => initConnection createOk (s, noEff)
    | _ => (s, noEff)
  | .openEvent, s =>
    if s.sockPhase == .pre && !s.isShuttingDown then onConnectionOpen (s, noEff)
    else (s, noEff)
  | .closeEvent code, s =>
    if sockLive s && !s.isShuttingDown then
      onConnectionClose backoff code ({ s with sockPhase := .closed }, noEff)
    else (s, noEff)
  | .waitDone createOk, s =>
    if s.waiting then
      let s := { s with waiting := false }
      if s.isShuttingDown then (s, noEff) else (createSocket createOk s, noEff)
    else (s, noEff)
  | .disconnectCall, s =>
    if s.isShuttingDown then (s, noEff)
    else
      let s := { s with isShuttingDown := true, waiting := false }
      let se := rejectPending (.plainErr "Client disconnected") (s, noEff)
      let s := { se.1 with registered := false, sockPhase := .absent }
      let se := setState .disconnected (s, se.2)
      ({ se.1 with isShuttingDown := false, hasConnectedOnce := false }, se.2)
  | .qrEvent, s =>
    if s.sockPhase == .pre && !s.isShuttingDown && s.sync then
      let s := { s with sockPhase := .absent }
      let se := setState .disconnected (s, noEff)
      rejectPending (.connErr "Authentication required for sync connection" none false) se
    else (s, noEff)

/-- A freshly constructed Client before any `connect()` call. -/
def initState (maxRetries : Nat) (sync : Bool) : CState :=
  { connState := .disconnected, sockPhase := .absent, socketsCreated := 0,
    reconnectAttempts := 0, hasConnectedOnce := false, isShuttingDown := false,
    pendingConnect := false, registered := false, sessionDeleted := false,
    waiting := false, maxRetries := maxRetries, sync := sync }

/-- States reachable from `s0` by the Client's atomic steps. -/
inductive Reachable (backoff : Nat → Nat) (s0 : CState) : CState → Prop
  | refl : Reachable backoff s0 s0
  | next {s s' : CState} (ev : CEvent) :
      Reachable backoff s0 s → (step backoff ev s).1 = s' → Reachable backoff s0 s'

/-- The transition chain named by the specification. -/
def chainEdges : List (ConnState × ConnState) :=
  [(.disconnected, .connecting), (.connecting, .connected),
   (.connected, .reconnecting), (.reconnecting, .connected),
   (.connected, .disconnected)]

/-! ### Matcher compiler and matching algorithm (PluginManager) -/

/-- Text is modeled as a list of characters (JS strings). -/
abbrev Str := List Char

/-- A trigger declaration: a literal string, a regular-expression pattern
(modeled by its exec function, returning the matched text), or a value of
another type (dropped by both filters in the source). -/
inductive Trigger
  | lit (s : Str)
  | pat (p : Str → Option Str)
  | junk

/-- A plugin's declared prefix policy: explicitly `false` (no requirement),
an explicit string-or-array value (flattened to a set), or the configured
default set (also used for the omitted option). -/
inductive PrefixOpt
  | noneRequired
  | explicitSet (l : List Str)
  | defaultCfg

/-- The compiled matcher: lower-cased literal list in declaration order, the
exact-trigger set (none when there are no literals), pattern triggers in
declaration order, and the resolved prefix set (none means no prefix
requirement). -/
structure Matchers where
  strings : List Str
  set : Option (List Str)
  regexes : List (Str → Option Str)
  pfxSet : Option (List Str)

/-- `PluginManager.#compile`: null unless the trigger list is a non-empty
array; literal triggers are lower-cased keeping declaration order; pattern
triggers are kept in declaration order; the prefix policy resolves to no
requirement (option exactly false), the option itself flattened to a set,
or the configured default set. -/
def compile (pfxCfg : List Str) (mtch : Option (List Trigger)) (pfxOpt : PrefixOpt) :
    Option Matchers :=
  match mtch with
  | none => none
  | some triggers =>
    if triggers.isEmpty then none
    else
      let strings := triggers.filterMap (fun t => match t with
        | .lit s => some (s.map Char.toLower)
        | _ => none)
      let regexes := triggers.filterMap (fun t => match t with
        | .pat p => some p
        | _ => none)
      let pfxSet := match pfxOpt with
        | .noneRequired => none
        | .explicitSet l => some l
        | .defaultCfg => some pfxCfg
      some { strings := strings,
             set := if strings.isEmpty then none else some strings,
             regexes := regexes,
             pfxSet := pfxSet }

/-- A successful match: the matched literal (or pattern result) and the
consumed first character (`null` on the pattern path). -/
structure MatchRes where
  matched : Str
  pfx : Option Str
deriving DecidableEq, Repr

/-- The startswith fallback inside `PluginManager.#test`: the first literal
`s` (declaration order) with the token strictly longer than `s` and starting
with `s`. -/
def startsFallback (strings : List Str) (cmd : Str) : Option Str :=
  strings.find? (fun s => decide (s.length < cmd.length) && decide (cmd.take s.length = s))

/-- The prefix check of `PluginManager.#test`: satisfied by any first
character when no prefix set is required, else by membership in the set. -/
def prefixOk (m : Matchers) (p : Char) : Bool :=
  match m.pfxSet with
  | none => true
  | some ps => ps.contains [p]

/-- The exact-trigger path of `PluginManager.#test`, applied to the
lower-cased text: the first character is consumed as the candidate prefix,
checked against the prefix set when one is required; the token up to the
first space of the remainder is the candidate command; exact set membership
wins over the startswith fallback. -/
def exactPath (m : Matchers) (text : Str) : Option MatchRes :=
  match m.set with
  | none => none
  | some set =>
    match text with
    | [] => none
    | p :: rest =>
      if prefixOk m p then
        let cmd := rest.takeWhile (fun c => c != ' ')
        if cmd.isEmpty then none
        else if set.contains cmd then some ⟨cmd, some [p]⟩
        else (startsFallback m.strings cmd).map (fun s => ⟨s, some [p]⟩)
      else none

/-- The pattern path of `PluginManager.#test`: patterns in declaration order
against the full original (non-lowercased, non-stripped) body; the first
success wins, with a null prefix. -/
def execRegexes (rs : List (Str → Option Str)) (body : Str) : Option MatchRes :=
  match rs with
  | [] => none
  | r :: rest =>
    match r body with
    | some m => some ⟨m, none⟩
    | none => execRegexes rest body

/-- `PluginManager.#test`: no match on an empty body; the exact-trigger path
on the lower-cased text always precedes pattern evaluation. -/
def testM (m : Matchers) (body : Str) : Option MatchRes :=
  if body.isEmpty then none
  else
    match exactPath m (body.map Char.toLower) with
    | some r => some r
    | none => execRegexes m.regexes body

/-- Substring search used to model the literal pattern /foo/. -/
def hasSub (needle : Str) : Str → Bool
  | [] => needle.isEmpty
  | c :: rest => decide ((c :: rest).take needle.length = needle) || hasSub needle rest

/-- The pattern /foo/: its exec succeeds on any body containing "foo",
returning the matched text "foo". -/
def reFoo : Str → Option Str :=
  fun body => if hasSub ("foo".data) body then some ("foo".data) else none

/-! ### Plugin registry, buckets and dispatch (PluginManager) -/

/-- The event context handed to plugins; only the fields the matching and
dispatch logic reads are modeled. -/
structure Ctx where
  event : String
  body : Str

/-- A normalized plugin: identity, source file, subscribed events (already
filtered/defaulted), compiled matcher, and the callable body (its thrown or
rejected failure modeled as `Except.error`). -/
structure Plugin where
  pid : String
  file : String
  events : List String
  matchers : Option Matchers
  run : Ctx → Option MatchRes → Except String Unit

/-- `PluginManager.#handleError`: emits a log line only when the debug flag
is enabled. -/
def handleError (isDebug : Bool) (context : String) (err : String) : List String :=
  if isDebug then [context ++ " " ++ err] else []

/-- One entry of the dispatch log: which plugin ran, with which match result,
and the caught error if its invocation failed. -/
structure Invocation where
  pid : String
  mres : Option MatchRes
  errored : Option String
deriving DecidableEq, Repr

/-- `PluginManager.#execute`: invoke the plugin, catching a thrown error;
the failure is routed to `#handleError` tagged with the plugin's identity. -/
def execute (isDebug : Bool) (p : Plugin) (ctx : Ctx) (m : Option MatchRes) :
    Invocation × List String :=
  match p.run ctx m with
  | .ok _ => (⟨p.pid, m, none⟩, [])
  | .error e => (⟨p.pid, m, some e⟩, handleError isDebug ("[Plugin:" ++ p.pid ++ "]") e)

/-- The per-event pair of plugin buckets: unconditional and conditioned,
each an insertion-ordered id-to-plugin map. -/
structure Bucket where
  auto : List (String × Plugin)
  mtch : List (String × Plugin)

/-- `PluginManager.#dispatch`: run every unconditional plugin in registration
order, then (when conditioned plugins exist and the body is non-empty) every
conditioned plugin whose matcher fires.  Returns the invocation log and the
emitted error-log lines. -/
def dispatch (isDebug : Bool) (b : Bucket) (ctx : Ctx) : List Invocation × List String :=
  let autos := b.auto.map (fun ip => execute isDebug ip.2 ctx none)
  let conds :=
    if b.mtch.isEmpty || ctx.body.isEmpty then []
    else b.mtch.filterMap (fun ip =>
      match ip.2.matchers with
      | none => none
      | some m => (testM m ctx.body).map (fun r => execute isDebug ip.2 ctx (some r)))
  let all := autos ++ conds
  (all.map (fun x => x.1), (all.map (fun x => x.2)).flatten)

/-- The (plugin id, match result) list `dispatch` will execute, determined by
the bucket structure and the body alone (independent of plugin behavior). -/
def plannedInvocations (b : Bucket) (ctx : Ctx) : List (String × Option MatchRes) :=
  b.auto.map (fun ip => (ip.2.pid, none)) ++
  (if b.mtch.isEmpty || ctx.body.isEmpty then []
   else b.mtch.filterMap (fun ip =>
     match ip.2.matchers with
     | none => none
     | some m => (testM m ctx.body).map (fun r => (ip.2.pid, some r))))

/-- The fixed event vocabulary (`EVENTS` in the source). -/
def EVENTS : List String :=
  ["messaging-history.set", "chats.upsert", "chats.update", "chats.delete",
   "contacts.upsert", "contacts.update", "messages.upsert", "messages.update",
   "messages.delete", "messages.reaction", "message-receipt.update",
   "groups.update", "group-participants.update", "connection.update",
   "creds.update", "presence.update", "blocklist.set", "blocklist.update", "call"]

/-- Lookup in an insertion-ordered string-keyed map. -/
def lookupA {α : Type} (l : List (String × α)) (k : String) : Option α :=
  (l.find? (fun p => p.1 == k)).map (fun p => p.2)

/-- JS `Map.set`: overwrite in place when the key exists, append otherwise. -/
def mapSet {α : Type} (l : List (String × α)) (k : String) (v : α) : List (String × α) :=
  if (l.find? (fun p => p.1 == k)).isSome
  then l.map (fun p => if p.1 == k then (k, v) else p)
  else l ++ [(k, v)]

/-- JS `Map.delete`: drop every entry with the key. -/
def mapDelete {α : Type} (l : List (String × α)) (k : String) : List (String × α) :=
  l.filter (fun p => p.1 != k)

/-- The process-wide PluginManager state the claims touch: the plugin
registry, the per-event buckets, and the per-event reference counts. -/
structure PMState where
  plugins : List (String × Plugin)
  buckets : List (String × Bucket)
  eventCounts : List (String × Nat)

/-- One event's worth of `PluginManager.#register`: place the plugin in the
conditioned bucket when it has a matcher, else the unconditional bucket,
skipping an event whose bucket already holds the id; a placement increments
the event's reference count. -/
def registerStep (id : String) (p : Plugin) (st : PMState) (e : String) : PMState :=
  match lookupA st.buckets e with
  | none => st
  | some b =>
    let present := if p.matchers.isSome then (lookupA b.mtch id).isSome
                   else (lookupA b.auto id).isSome
    if present then st
    else
      let b' := if p.matchers.isSome then { b with mtch := b.mtch ++ [(id, p)] }
                else { b with auto := b.auto ++ [(id, p)] }
      { st with buckets := mapSet st.buckets e b',
                eventCounts := mapSet st.eventCounts e
                  ((lookupA st.eventCounts e).getD 0 + 1) }

/-- `PluginManager.#register`: apply `registerStep` to each subscribed
event. -/
def registerP (id : String) (p : Plugin) (st : PMState) : PMState :=
  p.events.foldl (registerStep id p) st

/-- One event's worth of `PluginManager.#unregister`: delete the id from the
unconditional bucket or (only when it was not there) from the conditioned
bucket; a successful deletion decrements the event's reference count,
floored at zero. -/
def unregisterStep (id : String) (st : PMState) (e : String) : PMState :=
  match lookupA st.buckets e with
  | none => st
  | some b =>
    if (lookupA b.auto id).isSome then
      { st with buckets := mapSet st.buckets e { b with auto := mapDelete b.auto id },
                eventCounts := mapSet st.eventCounts e
                  (((lookupA st.eventCounts e).getD 1) - 1) }
    else if (lookupA b.mtch id).isSome then
      { st with buckets := mapSet st.buckets e { b with mtch := mapDelete b.mtch id },
                eventCounts := mapSet st.eventCounts e
                  (((lookupA st.eventCounts e).getD 1) - 1) }
    else st

/-- `PluginManager.#unregister`: apply `unregisterStep` to each of the
registered plugin's subscribed events. -/
def unregisterP (id : String) (st : PMState) : PMState :=
  (match lookupA st.plugins id with
   | some p => p.events
   | none => []).foldl (unregisterStep id) st

/-- One registry entry's worth of `PluginManager.#unloadFile`: when the
entry's source file matches, unregister it and delete it from the
registry. -/
def unloadStep (filePath : String) (acc : PMState) (ip : String × Plugin) : PMState :=
  if ip.2.file == filePath then
    let acc := unregisterP ip.1 acc
    { acc with plugins := mapDelete acc.plugins ip.1 }
  else acc

/-- `PluginManager.#unloadFile`: unregister and delete every plugin whose
source file is `filePath`. -/
def unloadFile (filePath : String) (st : PMState) : PMState :=
  st.plugins.foldl (unloadStep filePath) st

/-- Installing one freshly loaded plugin during `#hmr`: put it in the
registry, then register it into the buckets. -/
def installStep (st : PMState) (ip : String × Plugin) : PMState :=
  registerP ip.1 ip.2 { st with plugins := mapSet st.plugins ip.1 ip.2 }

/-- `PluginManager.#hmr` for an add/change notification: load the file in
isolation (no registration); a failed load is caught and leaves the state
unchanged; on success the file's previous plugin set is removed and the new
set installed.  `loadResult` is the outcome of the isolated import. -/
def hmrLoad (st : PMState) (filePath : String)
    (loadResult : Except String (List (String × Plugin))) : PMState :=
  match loadResult with
  | .error _ => st
  | .ok newPlugins => newPlugins.foldl installStep (unloadFile filePath st)

/-- A live instance's `#syncListeners`: drop handlers for events whose global
reference count is zero, then add handlers for active events not yet
handled. -/
def syncListeners (st : PMState) (handlers : List String) : List String :=
  let active := (st.eventCounts.filter (fun p => decide (0 < p.2))).map (fun p => p.1)
  (handlers.filter (fun e => active.contains e)) ++
    (active.filter (fun e => !handlers.contains e))

/-! ### Background session sync (Client.#syncOtherSessions) -/

/-- The Client options used by `#restoreSession` for each restored session. -/
structure RestoreOpts where
  id : Nat
  silent : Bool
  sync : Bool
  maxRetries : Nat
deriving DecidableEq, Repr

/-- Outcome of one settled restoration. -/
inductive RestoreResult
  | restored
  | skipped
  | failed
deriving DecidableEq, Repr

/-- `Client.#restoreSession`: skip ids already present in the Session
Registry; otherwise construct a silent background-sync Client with a retry
ceiling of 3 and connect it (`connectOk` is the outcome of that connect). -/
def restoreSession (registry : List Nat) (connectOk : Nat → Bool) (sessionId : Nat) :
    RestoreResult × Option RestoreOpts :=
  if registry.contains sessionId then (.skipped, none)
  else
    let opts : RestoreOpts := ⟨sessionId, true, true, 3⟩
    if connectOk sessionId then (.restored, some opts) else (.failed, some opts)

/-- `Client.#syncOtherSessions`: a no-op while the process-wide syncing flag
is set; otherwise every persisted id other than the initiating one is
restored, all settled independently (`Promise.allSettled`). -/
def syncOtherSessions (isSyncing : Bool) (selfId : Nat) (registry : List Nat)
    (allSessionIds : List Nat) (connectOk : Nat → Bool) :
    List (Nat × RestoreResult × Option RestoreOpts) :=
  if isSyncing then []
  else (allSessionIds.filter (fun i => i != selfId)).map
    (fun id => (id, restoreSession registry connectOk id))

/-! ### Association-list lemmas (JS Map model) -/

theorem lookupA_cons {α : Type} (a : String × α) (t : List (String × α)) (k : String) :
    lookupA (a :: t) k = if a.1 == k then some a.2 else lookupA t k := by
  unfold lookupA
  rw [List.find?_cons]
  by_cases h : a.1 == k <;> simp [h]

theorem lookupA_append {α : Type} (l1 l2 : List (String × α)) (k : String) :
    lookupA (l1 ++ l2) k = (lookupA l1 k).or (lookupA l2 k) := by
  unfold lookupA
  rw [List.find?_append]
  cases h : l1.find? (fun p => p.1 == k) <;> simp [h, Option.or]

theorem lookupA_mapOverwrite {α : Type} (l : List (String × α)) (k : String) (v : α) :
    lookupA (l.map (fun p => if p.1 == k then (k, v) else p)) k
      = if (l.find? (fun p => p.1 == k)).isSome then some v else none := by
  induction l with
  | nil => rfl
  | cons a t ih =>
    by_cases h : a.1 == k
    · simp only [List.map_cons, if_pos h, lookupA_cons, List.find?_cons, h]
      simp
    · have hf : (a.1 == k) = false := by simpa using h
      rw [List.map_cons, if_neg h, lookupA_cons, if_neg h, ih, List.find?_cons, hf]

theorem lookupA_mapOverwrite_ne {α : Type} (l : List (String × α)) (k k' : String) (v : α)
    (h : k' ≠ k) :
    lookupA (l.map (fun p => if p.1 == k then (k, v) else p)) k' = lookupA l k' := by
  induction l with
  | nil => rfl
  | cons a t ih =>
    by_cases ha : a.1 == k
    · have hak : a.1 = k := beq_iff_eq.mp ha
      simp only [List.map_cons, if_pos ha, lookupA_cons]
      rw [show (k == k') = false from beq_eq_false_iff_ne.mpr (Ne.symm h)]
      rw [show (a.1 == k') = false from by
        rw [hak]; exact beq_eq_false_iff_ne.mpr (Ne.symm h)]
      simp only [Bool.false_eq_true, if_false]
      exact ih
    · rw [List.map_cons, if_neg ha, lookupA_cons, lookupA_cons]
      by_cases hk' : a.1 == k'
      · rw [if_pos hk', if_pos hk']
      · rw [if_neg hk', if_neg hk', ih]

theorem lookupA_mapSet_self {α : Type} (l : List (String × α)) (k : String) (v : α) :
    lookupA (mapSet l k v) k = some v := by
  unfold mapSet
  by_cases h : (l.find? (fun p => p.1 == k)).isSome = true
  · rw [if_pos h, lookupA_mapOverwrite, if_pos h]
  · rw [if_neg h, lookupA_append]
    have h0 : lookupA l k = none := by
      unfold lookupA
      cases hf : l.find? (fun p => p.1 == k)
      · rfl
      · exact absurd (by simp [hf]) h
    rw [h0]
    simp [lookupA]

theorem lookupA_mapSet_ne {α : Type} (l : List (String × α)) (k k' : String) (v : α)
    (h : k' ≠ k) : lookupA (mapSet l k v) k' = lookupA l k' := by
  unfold mapSet
  by_cases hf : (l.find? (fun p => p.1 == k)).isSome = true
  · rw [if_pos hf]
    exact lookupA_mapOverwrite_ne l k k' v h
  · rw [if_neg hf, lookupA_append]
    have h1 : lookupA [(k, v)] k' = none := by
      rw [lookupA_cons]
      rw [show (k == k') = false from beq_eq_false_iff_ne.mpr (Ne.symm h)]
      rfl
    rw [h1]
    cases hl : lookupA l k' <;> simp [Option.or]

theorem lookupA_snoc_isSome {α : Type} (l : List (String × α)) (k : String) (v : α) :
    (lookupA (l ++ [(k, v)]) k).isSome = true := by
  rw [lookupA_append]
  cases hl : lookupA l k <;> simp [Option.or, lookupA_cons, lookupA]

theorem lookupA_eq_none_iff {α : Type} (l : List (String × α)) (k : String) :
    lookupA l k = none ↔ ∀ x ∈ l, ¬(x.1 == k) = true := by
  unfold lookupA
  rw [Option.map_eq_none']
  exact List.find?_eq_none

theorem mapSet_absent {α : Type} (l : List (String × α)) (k : String) (v : α)
    (h : lookupA l k = none) : mapSet l k v = l ++ [(k, v)] := by
  unfold mapSet
  rw [if_neg ?hn]
  case hn =>
    rw [lookupA_eq_none_iff] at h
    rw [List.find?_isSome]
    push_neg
    intro x hx
    simp [h x hx]

/-! ### Theorems -/

/-- C9: the background sync sweep never restores a session whose id is
already present in the Session Registry or equals the initiating session's
id; a second call while one is in flight (syncing flag set) is a no-op; each
restored session is created with silent output, background-sync mode and a
retry ceiling of 3; and settle-all semantics: the set of attempted ids never
depends on any individual connect outcome. -/
theorem c9_sync_sweep :
    (∀ selfId reg all ok, syncOtherSessions true selfId reg all ok = [])
  ∧ (∀ selfId reg all ok id r o,
      (id, r, o) ∈ syncOtherSessions false selfId reg all ok →
        id ≠ selfId ∧ (r = .restored → reg.contains id = false ∧ o = some ⟨id, true, true, 3⟩))
  ∧ (∀ selfId reg all ok,
      (syncOtherSessions false selfId reg all ok).map (fun t => t.1)
        = all.filter (fun i => i != selfId)) := by
  refine ⟨fun _ _ _ _ => rfl, ?_, ?_⟩
  · intro selfId reg all ok id r o hmem
    rw [syncOtherSessions, if_neg (by simp)] at hmem
    rw [List.mem_map] at hmem
    obtain ⟨x, hx, hxe⟩ := hmem
    have h1 : id = x := (congrArg Prod.fst hxe).symm
    subst h1
    have h2 : (r, o) = restoreSession reg ok id := (congrArg Prod.snd hxe).symm
    have hxne : id ≠ selfId := by
      have := List.of_mem_filter hx
      simpa using this
    refine ⟨hxne, ?_⟩
    intro hr
    unfold restoreSession at h2
    by_cases hc : reg.contains id
    · rw [if_pos hc, hr] at h2
      exact absurd (congrArg Prod.fst h2) (by simp)
    · rw [if_neg hc] at h2
      by_cases hok : ok id
      · rw [if_pos hok] at h2
        exact ⟨by simpa using hc, by simpa using congrArg Prod.snd h2⟩
      · rw [if_neg hok, hr] at h2
        exact absurd (congrArg Prod.fst h2) (by simp)
  · intro selfId reg all ok
    rw [syncOtherSessions, if_neg (by simp), List.map_map]
    have : ((fun t => t.1) ∘ fun id =>
        ((id, restoreSession reg ok id) : Nat × RestoreResult × Option RestoreOpts))
        = fun id => id := by funext id; rfl
    rw [this, List.map_id']

/-- Helper: `#execute` always returns an invocation for the given plugin with
the given match result, whatever the plugin body does. -/
theorem execute_fst (d : Bool) (p : Plugin) (ctx : Ctx) (m : Option MatchRes) :
    (execute d p ctx m).1.pid = p.pid ∧ (execute d p ctx m).1.mres = m := by
  unfold execute
  cases p.run ctx m <;> exact ⟨rfl, rfl⟩

/-- Helper shared by the dispatch claims: the (plugin, match) list a
dispatch executes is a function of the bucket structure and body alone,
independent of what any plugin body does. -/
theorem dispatch_planned (d : Bool) (b : Bucket) (ctx : Ctx) :
    (dispatch d b ctx).1.map (fun i => (i.pid, i.mres)) = plannedInvocations b ctx := by
  unfold dispatch plannedInvocations
  simp only [List.map_append, List.map_map]
  congr 1
  · exact List.map_congr_left (fun ip _ => by
      have h := execute_fst d ip.2 ctx none
      simp [Function.comp, h.1, h.2])
  · by_cases hc : (b.mtch.isEmpty || ctx.body.isEmpty) = true
    · simp [hc]
    · simp only [if_neg hc]
      rw [List.map_filterMap]
      refine List.filterMap_congr (fun ip _ => ?_)
      cases hm : ip.2.matchers with
      | none => rfl
      | some m =>
        cases ht : testM m ctx.body with
        | none => simp [ht]
        | some r =>
          have h := execute_fst d ip.2 ctx (some r)
          simp [ht, Option.map, h.1, h.2]

/-- C8 (amended): plugin invocation is isolated — the (plugin, match) list a
dispatch executes is determined by the bucket structure and body alone, so a
plugin whose invocation throws never prevents a sibling plugin from running
and never changes which plugins run; the thrown error is caught and routed
to the debug error handler tagged with the plugin's identity, which emits a
log line exactly when debug mode is enabled. -/
theorem c8_execution_isolation :
    (∀ d b ctx, (dispatch d b ctx).1.map (fun i => (i.pid, i.mres)) = plannedInvocations b ctx)
  ∧ (∀ d p ctx m e, p.run ctx m = .error e →
      execute d p ctx m = (⟨p.pid, m, some e⟩, handleError d ("[Plugin:" ++ p.pid ++ "]") e))
  ∧ (∀ c e, handleError true c e = [c ++ " " ++ e] ∧ handleError false c e = []) := by
  refine ⟨dispatch_planned, ?_, fun c e => ⟨rfl, rfl⟩⟩
  · intro d p ctx m e he
    unfold execute
    rw [he]

/-- A plugin whose every invocation throws. -/
def badPlugin : Plugin :=
  ⟨"cmds/bad:fail", "cmds/bad.js", ["messages.upsert"], none, fun _ _ => .error "boom"⟩

/-- A sibling plugin in the same bucket that always succeeds. -/
def goodPlugin : Plugin :=
  ⟨"cmds/good:ok", "cmds/good.js", ["messages.upsert"], none, fun _ _ => .ok ()⟩

def c8Bucket : Bucket := ⟨[("cmds/bad:fail", badPlugin), ("cmds/good:ok", goodPlugin)], []⟩

def c8Ctx : Ctx := ⟨"messages.upsert", "hello".data⟩

/-- C8 counterexample: with the debug flag off (the configured default), a
throwing plugin's failure is caught (its invocation is recorded with the
error, and the sibling plugin still runs on the same event) but nothing at
all is logged — refuting "is caught and logged with its identity" as
stated. -/
theorem c8_counterexample :
    (dispatch false c8Bucket c8Ctx).1 =
      [⟨"cmds/bad:fail", none, some "boom"⟩, ⟨"cmds/good:ok", none, none⟩]
    ∧ (dispatch false c8Bucket c8Ctx).2 = [] := by
  exact ⟨rfl, rfl⟩

/-- The trigger list `["help", "h"]`. -/
def helpTriggers : List Trigger := [.lit ("help".data), .lit ("h".data)]

/-- The prefix set for the single prefix `"!"`. -/
def pfxBang : List Str := [['!']]

/-- The matcher compiled from triggers `["help", "h"]` with prefix `"!"`. -/
def m5 : Matchers :=
  ⟨["help".data, "h".data], some ["help".data, "h".data], [], some pfxBang⟩

/-- The matcher compiled from triggers `["help", "h", /foo/]` with prefix
`"!"`. -/
def m5foo : Matchers :=
  ⟨["help".data, "h".data], some ["help".data, "h".data], [reFoo], some pfxBang⟩

/-- C5: the matching algorithm on the examples — "!help" matches exactly,
"!helpme" matches "help" via the startswith fallback, "help" without prefix
does not match, and the pattern /foo/ matches "xfooy" with a null prefix —
together with the general laws: the fallback fires for literal s and token t
exactly when t is strictly longer than s and starts with s (first declared
literal winning); the exact-trigger path always precedes pattern evaluation;
exact set membership beats the fallback; and patterns run in declaration
order against the full original body, first success winning. -/
theorem c5_matching_algorithm :
    (compile pfxBang (some helpTriggers) (.explicitSet pfxBang) = some m5
     ∧ compile pfxBang (some (helpTriggers ++ [.pat reFoo])) (.explicitSet pfxBang) = some m5foo)
  ∧ (testM m5 ("!help".data) = some ⟨"help".data, some ['!']⟩
     ∧ testM m5 ("!helpme".data) = some ⟨"help".data, some ['!']⟩
     ∧ testM m5 ("help".data) = none
     ∧ testM m5foo ("xfooy".data) = some ⟨"foo".data, none⟩
     ∧ testM m5foo ("!help".data) = some ⟨"help".data, some ['!']⟩)
  ∧ (∀ s cmd : Str, startsFallback [s] cmd = some s ↔
        s.length < cmd.length ∧ cmd.take s.length = s)
  ∧ (∀ (strings : List Str) (cmd : Str), (startsFallback strings cmd).isSome = true ↔
        ∃ s ∈ strings, s.length < cmd.length ∧ cmd.take s.length = s)
  ∧ (∀ (m : Matchers) (body : Str) (r : MatchRes), body ≠ [] →
        exactPath m (body.map Char.toLower) = some r → testM m body = some r)
  ∧ (∀ (m : Matchers) (body : Str), body ≠ [] →
        exactPath m (body.map Char.toLower) = none →
        testM m body = execRegexes m.regexes body)
  ∧ (∀ (m : Matchers) (ss : List Str) (p : Char) (rest cmd : Str),
        m.set = some ss → prefixOk m p = true →
        cmd = rest.takeWhile (fun c => c != ' ') → cmd ≠ [] → ss.contains cmd = true →
        exactPath m (p :: rest) = some ⟨cmd, some [p]⟩)
  ∧ (∀ (rs : List (Str → Option Str)) (r : Str → Option Str) (body : Str),
        execRegexes (r :: rs) body =
          (match r body with
           | some x => some (⟨x, none⟩ : MatchRes)
           | none => execRegexes rs body)) := by
  refine ⟨⟨rfl, rfl⟩, ⟨rfl, rfl, rfl, rfl, rfl⟩, ?_, ?_, ?_, ?_, ?_, fun _ _ _ => rfl⟩
  · intro s cmd
    by_cases h1 : s.length < cmd.length <;> by_cases h2 : cmd.take s.length = s <;>
      simp [startsFallback, List.find?, h1, h2]
  · intro strings cmd
    rw [startsFallback, List.find?_isSome]
    simp
  · intro m body r hne h
    rw [testM, if_neg (by simpa using hne), h]
  · intro m body hne h
    rw [testM, if_neg (by simpa using hne), h]
  · intro m ss p rest cmd hset hp hcmd hne hmem
    subst hcmd
    rw [exactPath, hset]
    simp only [hp, if_true]
    rw [if_neg (by simpa using hne), if_pos hmem]

/-- The matcher compiled from the single trigger `["help"]` with prefix
option explicitly false (no prefix requirement). -/
def mHelpNoPfx : Matchers := ⟨["help".data], some ["help".data], [], none⟩

/-- C10: the exact-trigger path always consumes the first character of the
lower-cased input as the prefix, even under the no-prefix-requirement
policy: with trigger "help" and prefix option false, input "help" does not
match (the token is "elp"), while for any first character c the input
c ++ "help" matches as {match: "help", prefix: lower-cased c}; and an input
whose remainder after the first character is empty or starts with a space
never matches on the exact path. -/
theorem c10_first_char_consumed :
    (∀ cfg, compile cfg (some [.lit ("help".data)]) .noneRequired = some mHelpNoPfx)
  ∧ testM mHelpNoPfx ("help".data) = none
  ∧ (∀ c : Char, testM mHelpNoPfx (c :: "help".data) = some ⟨"help".data, some [c.toLower]⟩)
  ∧ testM mHelpNoPfx ("?help".data) = some ⟨"help".data, some ['?']⟩
  ∧ (∀ (m : Matchers) (c : Char), exactPath m [c] = none)
  ∧ (∀ (m : Matchers) (c : Char) (rest : Str), exactPath m (c :: ' ' :: rest) = none) := by
  refine ⟨fun _ => rfl, rfl, fun _ => rfl, rfl, ?_, ?_⟩
  · intro m c
    unfold exactPath
    cases m.set with
    | none => rfl
    | some set => by_cases h : prefixOk m c <;> simp [h]
  · intro m c rest
    unfold exactPath
    cases m.set with
    | none => rfl
    | some set => by_cases h : prefixOk m c <;> simp [h, List.takeWhile]

/-- C3: the fixed classification table — connectionClosed (428),
restartRequired (515), timedOut / connectionLost (both 408),
unavailableService (503) recoverable without deletion; loggedOut (401)
recoverable with deletion; forbidden (403) non-recoverable with deletion;
405 recoverable with deletion; unrecognized codes recoverable without
deletion — and the close behavior: a non-recoverable (or shutting-down)
close sets Disconnected, rejects the pending deferred with a typed error
carrying message/statusCode/recoverable and never schedules a reconnect; a
recoverable close (not shutting down) schedules a reconnect with the next
backoff delay until retries are exhausted, at which point it finalizes
fatally; a deletion-flagged close deletes the persisted session. -/
theorem c3_disconnect_classification :
    (parseDisconnectReason (some 428) = ⟨"Connection closed", true, false⟩
     ∧ parseDisconnectReason (some 515) = ⟨"QR Scanned", true, false⟩
     ∧ (parseDisconnectReason (some 408)).recoverable = true
     ∧ (parseDisconnectReason (some 408)).deleteSession = false
     ∧ parseDisconnectReason (some 503) = ⟨"Service unavailable", true, false⟩
     ∧ parseDisconnectReason (some 401) = ⟨"Session logged out", true, true⟩
     ∧ parseDisconnectReason (some 403) = ⟨"Account banned", false, true⟩
     ∧ parseDisconnectReason (some 405) = ⟨"Not logged in", true, true⟩
     ∧ parseDisconnectReason (some 999) = ⟨"Unknown disconnect reason", true, false⟩
     ∧ parseDisconnectReason none = ⟨"Unknown disconnect reason", true, false⟩)
  ∧ (∀ (bo : Nat → Nat) code (s : CState) (e : Effects),
      (parseDisconnectReason code).recoverable = false ∨ s.isShuttingDown = true →
        (onConnectionClose bo code (s, e)).1.connState = .disconnected
      ∧ (onConnectionClose bo code (s, e)).2.scheduledDelay = e.scheduledDelay
      ∧ (s.pendingConnect = true → (onConnectionClose bo code (s, e)).2.rejected =
          some (.connErr (parseDisconnectReason code).message code
            (parseDisconnectReason code).recoverable)))
  ∧ (∀ (bo : Nat → Nat) code (s : CState) (e : Effects),
      (parseDisconnectReason code).recoverable = true → s.isShuttingDown = false →
        (s.reconnectAttempts + 1 ≤ s.maxRetries →
          (onConnectionClose bo code (s, e)).2.scheduledDelay =
            some (bo (s.reconnectAttempts + 1))
          ∧ (onConnectionClose bo code (s, e)).2.rejected = e.rejected)
      ∧ (s.maxRetries < s.reconnectAttempts + 1 →
          (onConnectionClose bo code (s, e)).1.connState = .disconnected
          ∧ (onConnectionClose bo code (s, e)).2.scheduledDelay = e.scheduledDelay
          ∧ (s.pendingConnect = true → (onConnectionClose bo code (s, e)).2.rejected =
              some (.connErr
                ("Max reconnection attempts (" ++ toString s.maxRetries ++ ") exceeded")
                none false))))
  ∧ (∀ (bo : Nat → Nat) code (s : CState) (e : Effects),
      (parseDisconnectReason code).deleteSession = true →
        (onConnectionClose bo code (s, e)).1.sessionDeleted = true) := by
  refine ⟨by decide, ?_, ?_, ?_⟩
  · intro bo code s e h
    have hcond : (!(parseDisconnectReason code).recoverable || s.isShuttingDown) = true := by
      rcases h with h | h <;> simp [h]
    unfold onConnectionClose
    by_cases hd : (parseDisconnectReason code).deleteSession <;>
      by_cases hp : s.pendingConnect <;>
      by_cases hc : s.connState = ConnState.disconnected <;>
      simp [hd, hp, hc, hcond, setState, rejectPending]
  · intro bo code s e hrec hsd
    have hcond : (!(parseDisconnectReason code).recoverable || s.isShuttingDown) = false := by
      simp [hrec, hsd]
    constructor
    · intro hle
      have hnotlt : ¬ s.maxRetries < s.reconnectAttempts + 1 := by omega
      unfold onConnectionClose
      by_cases hd : (parseDisconnectReason code).deleteSession <;>
        by_cases hco : s.hasConnectedOnce <;>
        by_cases hc : s.connState = ConnState.reconnecting <;>
        simp [hd, hco, hc, hcond, hnotlt, scheduleReconnect, setState]
    · intro hlt
      unfold onConnectionClose
      by_cases hd : (parseDisconnectReason code).deleteSession <;>
        by_cases hp : s.pendingConnect <;>
        by_cases hc : s.connState = ConnState.disconnected <;>
        simp [hd, hp, hc, hcond, hlt, scheduleReconnect, setState, rejectPending]
  · intro bo code s e hd
    unfold onConnectionClose
    by_cases hrec : (!(parseDisconnectReason code).recoverable ||
        s.isShuttingDown) = true <;>
      by_cases hp : s.pendingConnect <;>
      by_cases hc : s.connState = ConnState.disconnected <;>
      by_cases hlt : s.maxRetries < s.reconnectAttempts + 1 <;>
      by_cases hco : s.hasConnectedOnce <;>
      by_cases hcr : s.connState = ConnState.reconnecting <;>
      simp [hd, hrec, hp, hc, hlt, hco, hcr, scheduleReconnect, setState,
        rejectPending] at *

/-- C4: a successful open resets the reconnect attempt counter to zero (and,
after a Reconnecting phase, the reconnect notification carries the attempt
count that was reset); the backoff delay used for reconnect attempt N is
exactly backoff(N) (the counter is incremented to N and the timer started
with backoff(N)); the default backoff is min(1000 * 2^(N-1), 60000)
milliseconds; and when the incremented counter exceeds the configured
maximum the session finalizes fatally: state Disconnected, pending deferred
rejected with a non-recoverable ConnectionError, and no delay scheduled. -/
theorem c4_attempts_and_backoff :
    (∀ se : CState × Effects, (onConnectionOpen se).1.reconnectAttempts = 0)
  ∧ (∀ se : CState × Effects, se.1.connState = .reconnecting →
      (onConnectionOpen se).2.reconnectNote = some se.1.reconnectAttempts)
  ∧ (∀ (bo : Nat → Nat) (se : CState × Effects),
      se.1.reconnectAttempts + 1 ≤ se.1.maxRetries →
        (scheduleReconnect bo se).2.scheduledDelay = some (bo (se.1.reconnectAttempts + 1))
      ∧ (scheduleReconnect bo se).1.reconnectAttempts = se.1.reconnectAttempts + 1)
  ∧ (∀ n, defaultBackoff n = min (1000 * 2 ^ (n - 1)) 60000)
  ∧ (defaultBackoff 1 = 1000 ∧ defaultBackoff 2 = 2000 ∧ defaultBackoff 3 = 4000
     ∧ defaultBackoff 6 = 32000 ∧ defaultBackoff 7 = 60000 ∧ defaultBackoff 30 = 60000)
  ∧ (∀ (bo : Nat → Nat) (se : CState × Effects),
      se.1.maxRetries < se.1.reconnectAttempts + 1 →
        (scheduleReconnect bo se).1.connState = .disconnected
      ∧ (scheduleReconnect bo se).2.scheduledDelay = se.2.scheduledDelay
      ∧ (se.1.pendingConnect = true → (scheduleReconnect bo se).2.rejected =
          some (.connErr
            ("Max reconnection attempts (" ++ toString se.1.maxRetries ++ ") exceeded")
            none false))) := by
  refine ⟨?_, ?_, ?_, fun _ => rfl, by decide, ?_⟩
  · intro se
    unfold onConnectionOpen
    by_cases hw : se.1.connState = ConnState.reconnecting <;>
      by_cases hc : se.1.connState = ConnState.connected <;>
      by_cases hp : se.1.pendingConnect <;>
      simp [hw, hc, hp, setState, resolveOk]
  · intro se hw
    unfold onConnectionOpen
    simp [hw, setState, resolveOk]
  · intro bo se hle
    have hnotlt : ¬ se.1.maxRetries < se.1.reconnectAttempts + 1 := by omega
    unfold scheduleReconnect
    by_cases hco : se.1.hasConnectedOnce <;>
      by_cases hc : se.1.connState = ConnState.reconnecting <;>
      simp [hco, hc, hnotlt, setState]
  · intro bo se hlt
    unfold scheduleReconnect
    by_cases hp : se.1.pendingConnect <;>
      by_cases hc : se.1.connState = ConnState.disconnected <;>
      simp [hp, hc, hlt, setState, rejectPending]

/-- Helper: the guards behind a `newAttempt` outcome of `connect()`. -/
theorem connectOutcome_newAttempt {s : CState} (h : connectOutcome s = .newAttempt) :
    s.isShuttingDown = false ∧ s.connState ≠ .connected ∧ s.pendingConnect = false := by
  unfold connectOutcome at h
  by_cases h1 : s.isShuttingDown <;> by_cases h2 : s.connState = ConnState.connected <;>
    by_cases h3 : s.pendingConnect <;> simp [h1, h2, h3] at h ⊢

/-- C2: `connect()` is single-flight — it fails while shutting down; when
Connected it returns immediately (with the current sock/session/id) without
creating a socket or changing any state; when a pending connect deferred
exists it returns that same deferred's promise, constructing no socket and
changing no state; only otherwise does it start a new attempt, and after a
started attempt the deferred is installed so that a second `connect()` call
returns the pending promise and leaves the state (including the number of
sockets ever created) unchanged. -/
theorem c2_connect_single_flight :
    (∀ s : CState, s.isShuttingDown = true → connectOutcome s = .errShuttingDown)
  ∧ (∀ s : CState, s.isShuttingDown = false → s.connState = .connected →
      connectOutcome s = .immediate
      ∧ ∀ (bo : Nat → Nat) (co : Bool), step bo (.connectCall co) s = (s, noEff))
  ∧ (∀ s : CState, s.isShuttingDown = false → s.connState ≠ .connected →
      s.pendingConnect = true →
      connectOutcome s = .pendingPromise
      ∧ ∀ (bo : Nat → Nat) (co : Bool), step bo (.connectCall co) s = (s, noEff))
  ∧ (∀ (bo : Nat → Nat) (s : CState), connectOutcome s = .newAttempt →
      ((step bo (.connectCall true) s).1.pendingConnect = true
       ∧ (step bo (.connectCall true) s).1.socketsCreated = s.socketsCreated + 1
       ∧ connectOutcome (step bo (.connectCall true) s).1 = .pendingPromise
       ∧ ∀ co : Bool, step bo (.connectCall co) (step bo (.connectCall true) s).1 =
           ((step bo (.connectCall true) s).1, noEff))) := by
  refine ⟨?_, ?_, ?_, ?_⟩
  · intro s h
    unfold connectOutcome
    simp [h]
  · intro s h1 h2
    have ho : connectOutcome s = .immediate := by unfold connectOutcome; simp [h1, h2]
    exact ⟨ho, fun bo co => by simp [step, ho]⟩
  · intro s h1 h2 h3
    have ho : connectOutcome s = .pendingPromise := by
      unfold connectOutcome; simp [h1, h2, h3]
    exact ⟨ho, fun bo co => by simp [step, ho]⟩
  · intro bo s h
    obtain ⟨h1, h2, h3⟩ := connectOutcome_newAttempt h
    have hstep : step bo (.connectCall true) s =
        initConnection true (s, noEff) := by simp [step, h]
    have hs1 : (step bo (.connectCall true) s).1 =
        { s with connState := .connecting, reconnectAttempts := 0,
                 pendingConnect := true, sockPhase := .pre,
                 socketsCreated := s.socketsCreated + 1 } := by
      rw [hstep]
      unfold initConnection createSocket
      by_cases hc : s.connState = ConnState.connecting <;> simp [setState, hc]
    have ho : connectOutcome (step bo (.connectCall true) s).1 = .pendingPromise := by
      rw [hs1]
      unfold connectOutcome
      simp [h1]
    refine ⟨by rw [hs1], by rw [hs1], ho, fun co => ?_⟩
    rw [hs1] at ho ⊢
    simp [step, ho]

/-- Validity of emitted stateChange pairs: never a self-loop, and never
Connected directly to Connecting. -/
def PairsOk (l : List (ConnState × ConnState)) : Prop :=
  ∀ p ∈ l, p.1 ≠ p.2 ∧ ¬(p.1 = ConnState.connected ∧ p.2 = ConnState.connecting)

theorem pairsOk_nil : PairsOk [] := by intro p hp; cases hp

theorem pairsOk_append {l1 l2} (h1 : PairsOk l1) (h2 : PairsOk l2) : PairsOk (l1 ++ l2) := by
  intro p hp
  rcases List.mem_append.mp hp with h | h
  · exact h1 p h
  · exact h2 p h

theorem pairsOk_single {a b : ConnState} (h : a ≠ b)
    (h2 : ¬(a = ConnState.connected ∧ b = ConnState.connecting)) : PairsOk [(a, b)] := by
  intro p hp
  rcases List.mem_singleton.mp hp with rfl
  exact ⟨h, h2⟩

theorem setState_pairsOk {n : ConnState} {se : CState × Effects} (hok : PairsOk se.2.pairs)
    (hn : n ≠ .connecting ∨ se.1.connState ≠ .connected) :
    PairsOk (setState n se).2.pairs := by
  unfold setState
  by_cases h : se.1.connState = n
  · simpa [h] using hok
  · simp only [h, if_neg, if_false]
    refine pairsOk_append hok (pairsOk_single h ?_)
    rintro ⟨hc, hn'⟩
    rcases hn with hn | hn
    · exact hn hn'
    · exact hn hc

theorem rejectPending_pairs (err : RejErr) (se : CState × Effects) :
    (rejectPending err se).2.pairs = se.2.pairs := by
  unfold rejectPending
  by_cases h : se.1.pendingConnect <;> simp [h]

theorem resolveOk_pairs (se : CState × Effects) :
    (resolveOk se).2.pairs = se.2.pairs := by
  unfold resolveOk
  by_cases h : se.1.pendingConnect <;> simp [h]

theorem scheduleReconnect_pairsOk (bo : Nat → Nat) (se : CState × Effects)
    (hok : PairsOk se.2.pairs) : PairsOk (scheduleReconnect bo se).2.pairs := by
  unfold scheduleReconnect
  by_cases hlt : se.1.maxRetries < se.1.reconnectAttempts + 1
  · simp only [hlt, if_pos]
    rw [rejectPending_pairs]
    exact setState_pairsOk hok (Or.inl (by simp))
  · by_cases hco : se.1.hasConnectedOnce <;> simp only [hlt, hco, if_neg, if_pos, if_false]
    · exact setState_pairsOk hok (Or.inl (by simp))
    · exact hok

theorem onConnectionOpen_pairsOk (se : CState × Effects) (hok : PairsOk se.2.pairs) :
    PairsOk (onConnectionOpen se).2.pairs := by
  unfold onConnectionOpen
  have h1 : PairsOk (setState .connected se).2.pairs :=
    setState_pairsOk hok (Or.inl (by simp))
  by_cases hw : (se.1.connState == ConnState.reconnecting) = true
  · simpa [hw] using h1
  · simp only [hw, Bool.false_eq_true, if_false]
    rw [resolveOk_pairs]
    exact h1

theorem onConnectionClose_pairsOk (bo : Nat → Nat) (code : Option Nat)
    (se : CState × Effects) (hok : PairsOk se.2.pairs) :
    PairsOk (onConnectionClose bo code se).2.pairs := by
  unfold onConnectionClose
  by_cases hr : (!(parseDisconnectReason code).recoverable || se.1.isShuttingDown) = true
  · rw [if_pos hr, rejectPending_pairs]
    exact setState_pairsOk hok (Or.inl (by simp))
  · rw [if_neg hr]
    exact scheduleReconnect_pairsOk bo _ hok

theorem initConnection_pairsOk (co : Bool) (se : CState × Effects)
    (hok : PairsOk se.2.pairs) (hne : se.1.connState ≠ .connected) :
    PairsOk (initConnection co se).2.pairs := by
  unfold initConnection
  have h1 : PairsOk (setState .connecting se).2.pairs :=
    setState_pairsOk hok (Or.inr hne)
  cases co
  · simp only [if_false, Bool.false_eq_true]
    rw [rejectPending_pairs]
    exact setState_pairsOk h1 (Or.inl (by simp))
  · simpa using h1

/-- Rejecting the pending deferred never emits stateChange pairs. -/
theorem rejectPending_pairsOk (err : RejErr) (se : CState × Effects)
    (h : PairsOk se.2.pairs) : PairsOk (rejectPending err se).2.pairs := by
  rw [rejectPending_pairs]
  exact h

theorem pairsOk_noEff : PairsOk noEff.pairs := pairsOk_nil

/-- Every stateChange pair any step can emit, from any state: no self-loop,
and never Connected directly back to Connecting. -/
theorem step_pairsOk (bo : Nat → Nat) (ev : CEvent) (s : CState) :
    PairsOk (step bo ev s).2.pairs := by
  cases ev with
  | connectCall co =>
    simp only [step]
    cases ho : connectOutcome s with
    | newAttempt =>
      exact initConnection_pairsOk co (s, noEff) pairsOk_noEff (connectOutcome_newAttempt ho).2.1
    | errShuttingDown => exact pairsOk_noEff
    | immediate => exact pairsOk_noEff
    | pendingPromise => exact pairsOk_noEff
  | openEvent =>
    simp only [step]
    by_cases h : (s.sockPhase == SockPhase.pre && !s.isShuttingDown) = true
    · rw [if_pos h]
      exact onConnectionOpen_pairsOk _ pairsOk_noEff
    · rw [if_neg h]
      exact pairsOk_noEff
  | closeEvent code =>
    simp only [step]
    by_cases h : (sockLive s && !s.isShuttingDown) = true
    · rw [if_pos h]
      exact onConnectionClose_pairsOk _ _ _ pairsOk_noEff
    · rw [if_neg h]
      exact pairsOk_noEff
  | waitDone co =>
    simp only [step]
    by_cases h : s.waiting = true <;> by_cases h2 : s.isShuttingDown = true <;>
      simp only [h, h2, if_pos, if_neg, if_true, if_false] <;>
      exact pairsOk_noEff
  | disconnectCall =>
    simp only [step]
    by_cases h : s.isShuttingDown = true
    · rw [if_pos h]
      exact pairsOk_noEff
    · rw [if_neg h]
      exact setState_pairsOk (rejectPending_pairsOk _ _ pairsOk_noEff) (Or.inl (by simp))
  | qrEvent =>
    simp only [step]
    by_cases h : (s.sockPhase == SockPhase.pre && !s.isShuttingDown && s.sync) = true
    · rw [if_pos h]
      exact rejectPending_pairsOk _ _ (setState_pairsOk pairsOk_noEff (Or.inl (by simp)))
    · rw [if_neg h]
      exact pairsOk_noEff

/-- Reachability invariant of a Client: the shutting-down flag is never
observable between atomic steps (the source clears it before `disconnect()`
returns); a Connecting state always has a pending connect deferred; and
before the first successful open, the state is Disconnected or Connecting,
a Disconnected state holds no live socket, and a pending backoff wait can
only exist in Connecting with a pending deferred and no live socket. -/
def Inv (s : CState) : Prop :=
  s.isShuttingDown = false
  ∧ (s.connState = .connecting → s.pendingConnect = true)
  ∧ (s.hasConnectedOnce = false →
      s.connState = .disconnected ∨ s.connState = .connecting)
  ∧ (s.hasConnectedOnce = false → s.connState = .disconnected →
      s.sockPhase ≠ .pre ∧ s.sockPhase ≠ .opened)
  ∧ (s.hasConnectedOnce = false → s.waiting = true →
      s.pendingConnect = true ∧ s.connState = .connecting
      ∧ s.sockPhase ≠ .pre ∧ s.sockPhase ≠ .opened)

theorem inv_initState (mr : Nat) (sy : Bool) : Inv (initState mr sy) := by
  refine ⟨rfl, ?_, ?_, ?_, ?_⟩ <;> simp [initState]

theorem inv_step_connectCall (bo : Nat → Nat) (co : Bool) (s : CState) (h : Inv s) :
    Inv (step bo (.connectCall co) s).1 := by
  obtain ⟨hsd, hcp, hks, hdp, hw⟩ := h
  simp only [step]
  cases ho : connectOutcome s with
  | errShuttingDown => exact ⟨hsd, hcp, hks, hdp, hw⟩
  | immediate => exact ⟨hsd, hcp, hks, hdp, hw⟩
  | pendingPromise => exact ⟨hsd, hcp, hks, hdp, hw⟩
  | newAttempt =>
    obtain ⟨h1, h2, h3⟩ := connectOutcome_newAttempt ho
    unfold initConnection createSocket
    by_cases hc : s.connState = ConnState.connecting
    · exact absurd (hcp hc) (by simp [h3])
    · have hwf : s.hasConnectedOnce = false → s.waiting = false := by
        intro hco
        by_cases hwt : s.waiting = true
        · exact absurd (hw hco hwt).1 (by simp [h3])
        · simpa using hwt
      cases co <;> by_cases hco : s.hasConnectedOnce = false <;>
        simp_all [setState, rejectPending, Inv]

theorem setState_fst (n : ConnState) (se : CState × Effects) :
    (setState n se).1 = { se.1 with connState := n } := by
  obtain ⟨s, e⟩ := se
  unfold setState
  by_cases h : s.connState = n
  · rw [if_pos h]
    cases s
    cases h
    rfl
  · rw [if_neg h]

theorem rejectPending_fst (err : RejErr) (se : CState × Effects) :
    (rejectPending err se).1 = { se.1 with pendingConnect := false } := by
  obtain ⟨s, e⟩ := se
  unfold rejectPending
  by_cases h : s.pendingConnect = true
  · rw [if_pos h]
  · rw [if_neg h]
    cases s with
    | mk c sp sc ra hc sd pc r del w mr sy =>
      cases pc
      · rfl
      · exact absurd rfl h

theorem resolveOk_fst (se : CState × Effects) :
    (resolveOk se).1 = { se.1 with pendingConnect := false } := by
  obtain ⟨s, e⟩ := se
  unfold resolveOk
  by_cases h : s.pendingConnect = true
  · rw [if_pos h]
  · rw [if_neg h]
    cases s with
    | mk c sp sc ra hc sd pc r del w mr sy =>
      cases pc
      · rfl
      · exact absurd rfl h

theorem inv_step_openEvent (bo : Nat → Nat) (s : CState) (h : Inv s) :
    Inv (step bo .openEvent s).1 := by
  obtain ⟨hsd, hcp, hks, hdp, hw⟩ := h
  simp only [step]
  by_cases hen : (s.sockPhase == SockPhase.pre && !s.isShuttingDown) = true
  · rw [if_pos hen]
    unfold onConnectionOpen
    dsimp only
    by_cases hwr : (s.connState == ConnState.reconnecting) = true
    · by_cases hco : s.hasConnectedOnce = false
      · rcases hks hco with hD | hCg <;> simp_all
      · rw [if_pos hwr, setState_fst]
        refine ⟨hsd, ?_, ?_, ?_, ?_⟩ <;> intros <;> simp_all
    · rw [if_neg hwr, resolveOk_fst, setState_fst]
      refine ⟨hsd, ?_, ?_, ?_, ?_⟩ <;> intros <;> simp_all
  · rw [if_neg hen]
    exact ⟨hsd, hcp, hks, hdp, hw⟩

theorem inv_step_closeEvent (bo : Nat → Nat) (code : Option Nat) (s : CState) (h : Inv s) :
    Inv (step bo (.closeEvent code) s).1 := by
  obtain ⟨hsd, hcp, hks, hdp, hw⟩ := h
  simp only [step]
  by_cases hen : (sockLive s && !s.isShuttingDown) = true
  · rw [if_pos hen]
    have hlive : s.sockPhase = SockPhase.pre ∨ s.sockPhase = SockPhase.opened := by
      rw [Bool.and_eq_true] at hen
      have h' := hen.1
      unfold sockLive at h'
      rcases Bool.or_eq_true_iff.mp h' with h'' | h''
      · exact Or.inl (beq_iff_eq.mp h'')
      · exact Or.inr (beq_iff_eq.mp h'')
    have hnwait : s.hasConnectedOnce = false → s.waiting = false := by
      intro hco
      by_cases hwt : s.waiting = true
      · rcases hw hco hwt with ⟨-, -, hnp, hno⟩
        rcases hlive with h' | h' <;> simp_all
      · simpa using hwt
    have hcg : s.hasConnectedOnce = false → s.connState = ConnState.connecting := by
      intro hco
      rcases hks hco with hD | hCg
      · rcases hdp hco hD with ⟨hnp, hno⟩
        rcases hlive with h' | h' <;> simp_all
      · exact hCg
    unfold onConnectionClose
    dsimp only
    by_cases hd : (parseDisconnectReason code).deleteSession = true <;>
      [rw [if_pos hd]; rw [if_neg hd]] <;>
    · by_cases hrec : (!(parseDisconnectReason code).recoverable || s.isShuttingDown) = true
      · rw [if_pos hrec, rejectPending_fst, setState_fst]
        refine ⟨hsd, ?_, ?_, ?_, ?_⟩ <;> intros <;> simp_all
      · rw [if_neg hrec]
        unfold scheduleReconnect
        dsimp only
        by_cases hex : s.maxRetries < s.reconnectAttempts + 1
        · rw [if_pos hex, rejectPending_fst, setState_fst]
          refine ⟨hsd, ?_, ?_, ?_, ?_⟩ <;> intros <;> simp_all
        · rw [if_neg hex]
          by_cases hco : s.hasConnectedOnce = true
          · rw [if_pos hco, setState_fst]
            refine ⟨hsd, ?_, ?_, ?_, ?_⟩ <;> intros <;> simp_all
          · rw [if_neg hco]
            have hco' : s.hasConnectedOnce = false := by
              cases hcv : s.hasConnectedOnce
              · rfl
              · exact absurd hcv hco
            have hc1 := hcg hco'
            have hp1 := hcp hc1
            refine ⟨hsd, ?_, ?_, ?_, ?_⟩ <;> intros <;> simp_all
  · rw [if_neg hen]
    exact ⟨hsd, hcp, hks, hdp, hw⟩

theorem inv_step_waitDone (bo : Nat → Nat) (co : Bool) (s : CState) (h : Inv s) :
    Inv (step bo (.waitDone co) s).1 := by
  obtain ⟨hsd, hcp, hks, hdp, hw⟩ := h
  simp only [step]
  by_cases hwt : s.waiting = true
  · rw [if_pos hwt]
    dsimp only
    rw [if_neg (by simpa using hsd)]
    have hfacts : s.hasConnectedOnce = false →
        s.pendingConnect = true ∧ s.connState = ConnState.connecting := by
      intro hco
      exact ⟨(hw hco hwt).1, (hw hco hwt).2.1⟩
    unfold createSocket
    cases co <;> refine ⟨hsd, ?_, ?_, ?_, ?_⟩ <;> intros <;> simp_all
  · rw [if_neg hwt]
    exact ⟨hsd, hcp, hks, hdp, hw⟩

theorem inv_step_disconnectCall (bo : Nat → Nat) (s : CState) (h : Inv s) :
    Inv (step bo .disconnectCall s).1 := by
  obtain ⟨hsd, hcp, hks, hdp, hw⟩ := h
  simp only [step]
  rw [if_neg (by simpa using hsd)]
  dsimp only
  rw [setState_fst, rejectPending_fst]
  refine ⟨rfl, ?_, ?_, ?_, ?_⟩ <;> intros <;> simp_all

theorem inv_step_qrEvent (bo : Nat → Nat) (s : CState) (h : Inv s) :
    Inv (step bo .qrEvent s).1 := by
  obtain ⟨hsd, hcp, hks, hdp, hw⟩ := h
  simp only [step]
  by_cases hen : (s.sockPhase == SockPhase.pre && !s.isShuttingDown && s.sync) = true
  · rw [if_pos hen]
    have hpre : s.sockPhase = SockPhase.pre := by
      rw [Bool.and_eq_true, Bool.and_eq_true] at hen
      exact beq_iff_eq.mp hen.1.1
    have hnwait : s.hasConnectedOnce = false → s.waiting = false := by
      intro hco
      by_cases hwt : s.waiting = true
      · rcases hw hco hwt with ⟨-, -, hnp, -⟩
        exact absurd hpre hnp
      · simpa using hwt
    rw [rejectPending_fst, setState_fst]
    refine ⟨hsd, ?_, ?_, ?_, ?_⟩ <;> intros <;> simp_all
  · rw [if_neg hen]
    exact ⟨hsd, hcp, hks, hdp, hw⟩

theorem inv_step (bo : Nat → Nat) (ev : CEvent) (s : CState) (h : Inv s) :
    Inv (step bo ev s).1 := by
  cases ev with
  | connectCall co => exact inv_step_connectCall bo co s h
  | openEvent => exact inv_step_openEvent bo s h
  | closeEvent code => exact inv_step_closeEvent bo code s h
  | waitDone co => exact inv_step_waitDone bo co s h
  | disconnectCall => exact inv_step_disconnectCall bo s h
  | qrEvent => exact inv_step_qrEvent bo s h

/-- Every state reachable from a fresh Client satisfies the invariant. -/
theorem reachable_inv {bo : Nat → Nat} {mr : Nat} {sy : Bool} {s : CState}
    (h : Reachable bo (initState mr sy) s) : Inv s := by
  induction h with
  | refl => exact inv_initState mr sy
  | next ev hr hs ih =>
    rw [← hs]
    exact inv_step bo ev _ ih

theorem setState_pairs (n : ConnState) (se : CState × Effects) :
    (setState n se).2.pairs =
      se.2.pairs ++ (if se.1.connState = n then [] else [(se.1.connState, n)]) := by
  unfold setState
  by_cases h : se.1.connState = n <;> simp [h]

/-- Before the first successful open, the only transition out of
Disconnected that any step can emit goes to Connecting: the first connect
never skips Connecting. -/
theorem step_firstConnect (bo : Nat → Nat) (ev : CEvent) (s : CState)
    (h : Inv s) (hco : s.hasConnectedOnce = false) :
    ∀ p ∈ (step bo ev s).2.pairs, p.1 = ConnState.disconnected →
      p.2 = ConnState.connecting := by
  obtain ⟨hsd, hcp, hks, hdp, hw⟩ := h
  cases ev with
  | connectCall co =>
    simp only [step]
    cases ho : connectOutcome s with
    | errShuttingDown => intro p hp; cases hp
    | immediate => intro p hp; cases hp
    | pendingPromise => intro p hp; cases hp
    | newAttempt =>
      obtain ⟨h1, h2, h3⟩ := connectOutcome_newAttempt ho
      have hc : s.connState ≠ ConnState.connecting := by
        intro hcon
        exact absurd (hcp hcon) (by simp [h3])
      unfold initConnection createSocket
      dsimp only
      cases co <;> simp only [Bool.false_eq_true, if_false, eq_self_iff_true, if_true]
      · rw [rejectPending_pairs, setState_pairs, setState_pairs]
        rw [setState_fst]
        intro p hp hp1
        simp only [noEff, List.nil_append] at hp
        rw [if_neg hc] at hp
        rw [if_neg (by simp)] at hp
        simp only [List.mem_append, List.mem_singleton] at hp
        rcases hp with hp | hp
        · subst hp
          rfl
        · subst hp
          simp at hp1
      · rw [setState_pairs]
        intro p hp hp1
        simp only [noEff, List.nil_append] at hp
        rw [if_neg hc] at hp
        rw [List.mem_singleton] at hp
        subst hp
        rfl
  | openEvent =>
    simp only [step]
    by_cases hen : (s.sockPhase == SockPhase.pre && !s.isShuttingDown) = true
    · rw [if_pos hen]
      have hpre : s.sockPhase = SockPhase.pre := by
        rw [Bool.and_eq_true] at hen
        exact beq_iff_eq.mp hen.1
      have hnd : s.connState ≠ ConnState.disconnected := by
        intro hD
        exact absurd hpre (hdp hco hD).1
      unfold onConnectionOpen
      dsimp only
      by_cases hwr : (s.connState == ConnState.reconnecting) = true <;>
        [rw [if_pos hwr]; rw [if_neg hwr]]
      · rw [setState_pairs]
        intro p hp hp1
        simp only [noEff, List.nil_append] at hp
        by_cases hc : s.connState = ConnState.connected
        · rw [if_pos hc] at hp; cases hp
        · rw [if_neg hc, List.mem_singleton] at hp
          subst hp
          exact absurd hp1 hnd
      · rw [resolveOk_pairs, setState_pairs]
        intro p hp hp1
        simp only [noEff, List.nil_append] at hp
        by_cases hc : s.connState = ConnState.connected
        · rw [if_pos hc] at hp; cases hp
        · rw [if_neg hc, List.mem_singleton] at hp
          subst hp
          exact absurd hp1 hnd
    · rw [if_neg hen]
      intro p hp
      cases hp
  | closeEvent code =>
    simp only [step]
    by_cases hen : (sockLive s && !s.isShuttingDown) = true
    · rw [if_pos hen]
      have hlive : s.sockPhase = SockPhase.pre ∨ s.sockPhase = SockPhase.opened := by
        rw [Bool.and_eq_true] at hen
        have h' := hen.1
        unfold sockLive at h'
        rcases Bool.or_eq_true_iff.mp h' with h'' | h''
        · exact Or.inl (beq_iff_eq.mp h'')
        · exact Or.inr (beq_iff_eq.mp h'')
      have hcg : s.connState = ConnState.connecting := by
        rcases hks hco with hD | hCg
        · rcases hdp hco hD with ⟨hnp, hno⟩
          rcases hlive with h' | h' <;> simp_all
        · exact hCg
      unfold onConnectionClose
      dsimp only
      by_cases hd : (parseDisconnectReason code).deleteSession = true <;>
        [rw [if_pos hd]; rw [if_neg hd]] <;>
      · by_cases hrec : (!(parseDisconnectReason code).recoverable || s.isShuttingDown) = true
        · rw [if_pos hrec, rejectPending_pairs, setState_pairs]
          intro p hp hp1
          simp only [noEff, List.nil_append] at hp
          rw [if_neg (by simp [hcg])] at hp
          rw [List.mem_singleton] at hp
          subst hp
          simp [hcg] at hp1
        · rw [if_neg hrec]
          unfold scheduleReconnect
          dsimp only
          by_cases hex : s.maxRetries < s.reconnectAttempts + 1
          · rw [if_pos hex, rejectPending_pairs, setState_pairs]
            intro p hp hp1
            simp only [noEff, List.nil_append] at hp
            rw [if_neg (by simp [hcg])] at hp
            rw [List.mem_singleton] at hp
            subst hp
            simp [hcg] at hp1
          · rw [if_neg hex, if_neg (by simp [hco])]
            intro p hp
            cases hp
    · rw [if_neg hen]
      intro p hp
      cases hp
  | waitDone co =>
    simp only [step]
    by_cases hwt : s.waiting = true <;> [rw [if_pos hwt]; rw [if_neg hwt]]
    · dsimp only
      rw [if_neg (by simpa using hsd)]
      unfold createSocket
      cases co <;> (intro p hp; cases hp)
    · intro p hp
      cases hp
  | disconnectCall =>
    simp only [step]
    rw [if_neg (by simpa using hsd)]
    dsimp only
    rw [setState_pairs, rejectPending_pairs, rejectPending_fst]
    intro p hp hp1
    simp only [noEff, List.nil_append] at hp
    by_cases hc : s.connState = ConnState.disconnected
    · rw [if_pos (by simp [hc])] at hp
      cases hp
    · rw [if_neg (by simp [hc])] at hp
      rw [List.mem_singleton] at hp
      subst hp
      simp at hp1
      exact absurd hp1 hc
  | qrEvent =>
    simp only [step]
    by_cases hen : (s.sockPhase == SockPhase.pre && !s.isShuttingDown && s.sync) = true <;>
      [rw [if_pos hen]; rw [if_neg hen]]
    · rw [rejectPending_pairs, setState_pairs]
      intro p hp hp1
      simp only [noEff, List.nil_append] at hp
      by_cases hc : s.connState = ConnState.disconnected
      · rw [if_pos (by simp [hc])] at hp
        cases hp
      · rw [if_neg (by simp [hc])] at hp
        rw [List.mem_singleton] at hp
        subst hp
        simp at hp1
        exact absurd hp1 hc
    · intro p hp
      cases hp

/-- C1 counterexample: from the initial state (reachable by reflexivity), a
`connect()` call whose socket creation fails emits the stateChange pair
(Connecting, Disconnected), which is not an edge of the specified chain — so
"every reachable (oldState, newState) pair is an edge of the chain" is false
on the code. -/
theorem c1_counterexample :
    ¬ (∀ (s : CState) (ev : CEvent) (p : ConnState × ConnState),
        Reachable defaultBackoff (initState 30 false) s →
        p ∈ (step defaultBackoff ev s).2.pairs → p ∈ chainEdges) := by
  intro h
  have hmem : ((ConnState.connecting, ConnState.disconnected) : ConnState × ConnState)
      ∈ (step defaultBackoff (.connectCall false) (initState 30 false)).2.pairs := by
    decide
  have := h (initState 30 false) (.connectCall false)
    (ConnState.connecting, ConnState.disconnected) Reachable.refl hmem
  exact absurd this (by decide)

/-- C1 (amended): transitions need not stay on the chain
Disconnected→Connecting→Connected→Reconnecting→Connected→Disconnected —
failure and re-entry edges occur (e.g. Connecting→Disconnected on a failed
first attempt, Reconnecting→Disconnected on retry exhaustion or a terminal
close, Reconnecting→Connecting on a `connect()` call during backoff).  What
holds instead: every emitted (oldState, newState) pair has oldState ≠
newState and is never (Connected, Connecting); and before the first
successful open, every transition out of Disconnected goes to Connecting —
the first connect never skips Connecting. -/
theorem c1_transitions :
    (∀ (bo : Nat → Nat) (ev : CEvent) (s : CState) (p : ConnState × ConnState),
        p ∈ (step bo ev s).2.pairs →
        p.1 ≠ p.2 ∧ ¬(p.1 = ConnState.connected ∧ p.2 = ConnState.connecting))
  ∧ (∀ (bo : Nat → Nat) (mr : Nat) (sy : Bool) (s : CState) (ev : CEvent)
        (p : ConnState × ConnState),
        Reachable bo (initState mr sy) s → s.hasConnectedOnce = false →
        p ∈ (step bo ev s).2.pairs → p.1 = ConnState.disconnected →
        p.2 = ConnState.connecting) := by
  constructor
  · intro bo ev s p hp
    exact step_pairsOk bo ev s p hp
  · intro bo mr sy s ev p hr hco hp hp1
    exact step_firstConnect bo ev s (reachable_inv hr) hco p hp hp1

/-- The conditioned/unconditional placement invariant used for C6: every
bucket registered under event e holds the plugin id in its unconditional
map. -/
def AutoHolds (id : String) (e : String) (st : PMState) : Prop :=
  ∀ b, lookupA st.buckets e = some b → (lookupA b.auto id).isSome = true

theorem registerStep_autoHolds_pres {id : String} {p : Plugin} {e : String}
    (hm : p.matchers = none) (st : PMState) (e' : String)
    (h : AutoHolds id e st) : AutoHolds id e (registerStep id p st e') := by
  unfold registerStep
  cases hb : lookupA st.buckets e' with
  | none => exact h
  | some b =>
    dsimp only
    rw [hm]
    simp only [Option.isSome_none, Bool.false_eq_true, if_false]
    by_cases hpres : (lookupA b.auto id).isSome = true
    · rw [if_pos hpres]
      exact h
    · rw [if_neg hpres]
      intro b0 hb0
      by_cases he : e' = e
      · subst he
        rw [lookupA_mapSet_self] at hb0
        cases hb0
        exact lookupA_snoc_isSome b.auto id p
      · rw [lookupA_mapSet_ne _ _ _ _ (fun hh => he hh.symm)] at hb0
        exact h b0 hb0

theorem registerStep_autoHolds_est {id : String} {p : Plugin} {e : String}
    (hm : p.matchers = none) (st : PMState) :
    AutoHolds id e (registerStep id p st e) := by
  unfold registerStep
  cases hb : lookupA st.buckets e with
  | none =>
    intro b0 hb0
    rw [hb] at hb0
    cases hb0
  | some b =>
    dsimp only
    rw [hm]
    simp only [Option.isSome_none, Bool.false_eq_true, if_false]
    by_cases hpres : (lookupA b.auto id).isSome = true
    · rw [if_pos hpres]
      intro b0 hb0
      rw [hb] at hb0
      cases hb0
      exact hpres
    · rw [if_neg hpres]
      intro b0 hb0
      rw [lookupA_mapSet_self] at hb0
      cases hb0
      exact lookupA_snoc_isSome b.auto id p

theorem registerFold_autoHolds {id : String} {p : Plugin} {e : String}
    (hm : p.matchers = none) (l : List String) (st : PMState)
    (h : AutoHolds id e st) : AutoHolds id e (l.foldl (registerStep id p) st) := by
  induction l generalizing st with
  | nil => exact h
  | cons a t ih => exact ih _ (registerStep_autoHolds_pres hm st a h)

theorem registerP_autoHolds {id : String} {p : Plugin} {e : String}
    (hm : p.matchers = none) (he : e ∈ p.events) (st : PMState) :
    AutoHolds id e (registerP id p st) := by
  obtain ⟨l1, l2, hsplit⟩ := List.append_of_mem he
  unfold registerP
  rw [hsplit, List.foldl_append, List.foldl_cons]
  exact registerFold_autoHolds hm l2 _
    (registerStep_autoHolds_est hm (l1.foldl (registerStep id p) st))

/-- C6: the compiled matcher of a plugin with a non-empty trigger list
consists of the lower-cased literal list in declaration order, the
exact-trigger set built from it (absent when there are no literals), the
pattern triggers in declaration order, and the resolved prefix set (the
explicit option as a set, no requirement when the option is false, else the
configured default set); a trigger-less plugin gets no matcher
(`compile` returns null), is registered in the unconditional bucket of each
subscribed event, and every plugin in an unconditional bucket is dispatched
on every occurrence of that event. -/
theorem c6_compile_and_unconditional :
    (∀ cfg po, compile cfg none po = none)
  ∧ (∀ cfg po, compile cfg (some []) po = none)
  ∧ (∀ cfg ts po m, compile cfg (some ts) po = some m →
        m.strings = ts.filterMap (fun t => match t with
          | .lit s => some (s.map Char.toLower)
          | _ => none)
      ∧ m.regexes = ts.filterMap (fun t => match t with
          | .pat r => some r
          | _ => none)
      ∧ m.set = (if m.strings.isEmpty then none else some m.strings)
      ∧ m.pfxSet = (match po with
          | .noneRequired => none
          | .explicitSet l => some l
          | .defaultCfg => some cfg))
  ∧ (∀ (id : String) (p : Plugin) (st : PMState) (e : String),
        p.matchers = none → e ∈ p.events →
        ∀ b, lookupA (registerP id p st).buckets e = some b →
          (lookupA b.auto id).isSome = true)
  ∧ (∀ (d : Bool) (b : Bucket) (ctx : Ctx) (ip : String × Plugin), ip ∈ b.auto →
        (ip.2.pid, (none : Option MatchRes)) ∈
          (dispatch d b ctx).1.map (fun i => (i.pid, i.mres))) := by
  refine ⟨fun _ _ => rfl, fun _ _ => rfl, ?_, ?_, ?_⟩
  · intro cfg ts po m h
    unfold compile at h
    dsimp only at h
    by_cases hts : ts.isEmpty = true
    · rw [if_pos hts] at h
      cases h
    · rw [if_neg hts] at h
      cases h
      exact ⟨rfl, rfl, rfl, rfl⟩
  · intro id p st e hm he b hb
    exact registerP_autoHolds hm he st b hb
  · intro d b ctx ip hip
    rw [dispatch_planned]
    unfold plannedInvocations
    exact List.mem_append_left _ (List.mem_map.mpr ⟨ip, hip, rfl⟩)

theorem registerStep_plugins (id : String) (p : Plugin) (st : PMState) (e : String) :
    (registerStep id p st e).plugins = st.plugins := by
  unfold registerStep
  cases hb : lookupA st.buckets e with
  | none => rfl
  | some b =>
    dsimp only
    by_cases hpres : (if p.matchers.isSome then (lookupA b.mtch id).isSome
        else (lookupA b.auto id).isSome) = true
    · rw [if_pos hpres]
    · rw [if_neg hpres]

theorem registerP_plugins (id : String) (p : Plugin) (st : PMState) :
    (registerP id p st).plugins = st.plugins := by
  unfold registerP
  induction p.events generalizing st with
  | nil => rfl
  | cons a t ih =>
    rw [List.foldl_cons]
    rw [ih (registerStep id p st a), registerStep_plugins]

theorem unregisterStep_plugins (id : String) (st : PMState) (e : String) :
    (unregisterStep id st e).plugins = st.plugins := by
  unfold unregisterStep
  cases hb : lookupA st.buckets e with
  | none => rfl
  | some b =>
    dsimp only
    by_cases h1 : (lookupA b.auto id).isSome = true
    · rw [if_pos h1]
    · rw [if_neg h1]
      by_cases h2 : (lookupA b.mtch id).isSome = true
      · rw [if_pos h2]
      · rw [if_neg h2]

theorem unregisterP_plugins (id : String) (st : PMState) :
    (unregisterP id st).plugins = st.plugins := by
  unfold unregisterP
  generalize (match lookupA st.plugins id with
    | some p => p.events
    | none => []) = evs
  induction evs generalizing st with
  | nil => rfl
  | cons a t ih =>
    rw [List.foldl_cons, ih (unregisterStep id st a), unregisterStep_plugins]

theorem unloadFold_plugins (f : String) (L : List (String × Plugin)) (acc : PMState) :
    (L.foldl (unloadStep f) acc).plugins
      = L.foldl (fun pl ip => if ip.2.file == f then mapDelete pl ip.1 else pl) acc.plugins := by
  induction L generalizing acc with
  | nil => rfl
  | cons a t ih =>
    rw [List.foldl_cons, List.foldl_cons, ih]
    congr 1
    unfold unloadStep
    by_cases hf : (a.2.file == f) = true
    · rw [if_pos hf, if_pos hf]
      dsimp only
      rw [unregisterP_plugins]
    · rw [if_neg hf, if_neg hf]

def delKeys (f : String) (L : List (String × Plugin)) : List String :=
  (L.filter (fun ip => ip.2.file == f)).map (fun ip => ip.1)

theorem delFold_eq_filter (f : String) (L : List (String × Plugin))
    (pl : List (String × Plugin)) :
    L.foldl (fun pl ip => if ip.2.file == f then mapDelete pl ip.1 else pl) pl
      = pl.filter (fun ip => !(delKeys f L).contains ip.1) := by
  induction L generalizing pl with
  | nil => simp [delKeys]
  | cons a t ih =>
    rw [List.foldl_cons]
    by_cases hf : (a.2.file == f) = true
    · rw [if_pos hf, ih]
      unfold mapDelete
      rw [List.filter_filter]
      refine List.filter_congr (fun ip _ => ?_)
      have hdk : delKeys f (a :: t) = a.1 :: delKeys f t := by
        simp [delKeys, List.filter_cons, hf]
      rw [hdk, List.contains_cons]
      cases hip : (ip.1 == a.1) <;> cases hdc : (delKeys f t).contains ip.1 <;>
        simp [bne, hip, hdc]
    · rw [if_neg hf, ih]
      have hdk : delKeys f (a :: t) = delKeys f t := by
        simp [delKeys, List.filter_cons, hf]
      rw [hdk]


theorem contains_iff_mem_str (l : List String) (x : String) :
    l.contains x = true ↔ x ∈ l := by
  exact List.elem_iff

theorem unloadFile_plugins (f : String) (st : PMState)
    (hnd : (st.plugins.map (fun ip => ip.1)).Nodup) :
    (unloadFile f st).plugins = st.plugins.filter (fun ip => ip.2.file != f) := by
  unfold unloadFile
  rw [unloadFold_plugins, delFold_eq_filter]
  refine List.filter_congr (fun ip hip => ?_)
  by_cases hf : (ip.2.file == f) = true
  · have hmem : ip.1 ∈ delKeys f st.plugins := by
      unfold delKeys
      exact List.mem_map.mpr ⟨ip, List.mem_filter.mpr ⟨hip, hf⟩, rfl⟩
    rw [(contains_iff_mem_str _ _).mpr hmem]
    simp [bne, beq_iff_eq.mp hf]
  · have hnmem : ¬ ip.1 ∈ delKeys f st.plugins := by
      intro hmem
      unfold delKeys at hmem
      obtain ⟨jq, hjq, hjq1⟩ := List.mem_map.mp hmem
      have hjmem := (List.mem_filter.mp hjq).1
      have hjf := (List.mem_filter.mp hjq).2
      have : jq = ip := List.inj_on_of_nodup_map hnd hjmem hip hjq1
      subst this
      exact hf hjf
    rw [show (delKeys f st.plugins).contains ip.1 = false from by
      cases hc : (delKeys f st.plugins).contains ip.1
      · rfl
      · exact absurd ((contains_iff_mem_str _ _).mp hc) hnmem]
    simp [bne, hf]

theorem installStep_plugins (st : PMState) (ip : String × Plugin) :
    (installStep st ip).plugins = mapSet st.plugins ip.1 ip.2 := by
  unfold installStep
  rw [registerP_plugins]

theorem installFold_plugins (L : List (String × Plugin)) (acc : PMState) :
    (L.foldl installStep acc).plugins
      = L.foldl (fun pl ip => mapSet pl ip.1 ip.2) acc.plugins := by
  induction L generalizing acc with
  | nil => rfl
  | cons a t ih =>
    rw [List.foldl_cons, List.foldl_cons, ih, installStep_plugins]

theorem mapSetFold_append (L : List (String × Plugin)) (pl : List (String × Plugin))
    (habs : ∀ ip ∈ L, lookupA pl ip.1 = none)
    (hnd : (L.map (fun ip => ip.1)).Nodup) :
    L.foldl (fun pl ip => mapSet pl ip.1 ip.2) pl = pl ++ L := by
  induction L generalizing pl with
  | nil => simp
  | cons a t ih =>
    rw [List.foldl_cons]
    rw [show mapSet pl a.1 a.2 = pl ++ [(a.1, a.2)] from
      mapSet_absent pl a.1 a.2 (habs a (List.mem_cons_self a t))]
    rw [List.map_cons, List.nodup_cons] at hnd
    rw [ih (pl ++ [(a.1, a.2)]) ?habs hnd.2]
    · simp
    · intro ip hip
      rw [lookupA_append]
      rw [habs ip (List.mem_cons_of_mem a hip)]
      rw [lookupA_cons]
      have hne : (a.1 == ip.1) = false := by
        refine beq_eq_false_iff_ne.mpr ?_
        intro heq
        exact hnd.1 (heq ▸ List.mem_map.mpr ⟨ip, hip, rfl⟩)
      rw [hne]
      rfl

theorem hmr_swap (st : PMState) (f : String) (new : List (String × Plugin))
    (hnd : (st.plugins.map (fun ip => ip.1)).Nodup)
    (hnew : (new.map (fun ip => ip.1)).Nodup)
    (hcol : ∀ ip ∈ new, ∀ jq ∈ st.plugins, ip.1 = jq.1 → jq.2.file = f) :
    (hmrLoad st f (.ok new)).plugins
      = st.plugins.filter (fun ip => ip.2.file != f) ++ new := by
  unfold hmrLoad
  rw [installFold_plugins, unloadFile_plugins f st hnd]
  rw [mapSetFold_append _ _ ?habs hnew]
  · intro ip hip
    rw [lookupA_eq_none_iff]
    intro x hx hbeq
    have hxm := (List.mem_filter.mp hx).1
    have hxf := (List.mem_filter.mp hx).2
    have : x.2.file = f := hcol ip hip x hxm (beq_iff_eq.mp hbeq).symm
    rw [this] at hxf
    simp [bne] at hxf


theorem syncListeners_mem (st : PMState) (handlers : List String) (e : String) :
    e ∈ syncListeners st handlers ↔ ∃ p ∈ st.eventCounts, p.1 = e ∧ 0 < p.2 := by
  unfold syncListeners
  rw [List.mem_append, List.mem_filter, List.mem_filter]
  constructor
  · rintro (⟨-, hact⟩ | ⟨hact, -⟩)
    · have := List.elem_iff.mp hact
      obtain ⟨p, hp, hpe⟩ := List.mem_map.mp this
      have hpf := List.mem_filter.mp hp
      exact ⟨p, hpf.1, hpe, by simpa using hpf.2⟩
    · obtain ⟨p, hp, hpe⟩ := List.mem_map.mp hact
      have hpf := List.mem_filter.mp hp
      exact ⟨p, hpf.1, hpe, by simpa using hpf.2⟩
  · rintro ⟨p, hp, hpe, hpos⟩
    have hact : e ∈ (st.eventCounts.filter (fun p => decide (0 < p.2))).map (fun p => p.1) :=
      List.mem_map.mpr ⟨p, List.mem_filter.mpr ⟨hp, by simpa using hpos⟩, hpe⟩
    by_cases hh : e ∈ handlers
    · exact Or.inl ⟨hh, List.elem_iff.mpr hact⟩
    · refine Or.inr ⟨hact, ?_⟩
      rw [show handlers.contains e = false from by
        cases hc : handlers.contains e
        · rfl
        · exact absurd (List.elem_iff.mp hc) hh]
      rfl

def pluginTwoA : Plugin :=
  ⟨"plugins/two:a", "plugins/two.js", ["call"], none, fun _ _ => .ok ()⟩

def pluginTwoB : Plugin :=
  ⟨"plugins/two:b", "plugins/two.js", ["presence.update"], none, fun _ _ => .ok ()⟩

def freshPM : PMState :=
  ⟨[], EVENTS.map (fun e => (e, ⟨[], []⟩)), EVENTS.map (fun e => (e, 0))⟩

def stTwo : PMState :=
  hmrLoad freshPM "plugins/two.js"
    (.ok [("plugins/two:a", pluginTwoA), ("plugins/two:b", pluginTwoB)])

def stOne : PMState :=
  hmrLoad stTwo "plugins/two.js" (.ok [("plugins/two:a", pluginTwoA)])



/-- C7: hot reload of a file is all-or-nothing — a failed isolated load
leaves the whole PluginManager state (registry, buckets, counts) unchanged;
a successful load atomically replaces the file's previous plugin set with
the newly loaded set (under the source's guarantees that registry keys are
unique and a new id can only collide with an id of the same file, both of
which hold because ids embed the file path); after the swap a live
instance's resynchronized subscription set contains exactly the events with
a positive reference count; and concretely, reloading a file that exported
two plugins down to one leaves exactly one registry entry for that file and
drops the orphaned event from a live instance's handler list. -/
theorem c7_hot_reload :
    (∀ st f e, hmrLoad st f (.error e) = st)
  ∧ (∀ (st : PMState) (f : String) (new : List (String × Plugin)),
      (st.plugins.map (fun ip => ip.1)).Nodup →
      (new.map (fun ip => ip.1)).Nodup →
      (∀ ip ∈ new, ∀ jq ∈ st.plugins, ip.1 = jq.1 → jq.2.file = f) →
      (hmrLoad st f (.ok new)).plugins
        = st.plugins.filter (fun ip => ip.2.file != f) ++ new)
  ∧ (∀ st handlers e, e ∈ syncListeners st handlers ↔
      ∃ p ∈ st.eventCounts, p.1 = e ∧ 0 < p.2)
  ∧ (stTwo.plugins = [("plugins/two:a", pluginTwoA), ("plugins/two:b", pluginTwoB)]
     ∧ stOne.plugins = [("plugins/two:a", pluginTwoA)]
     ∧ lookupA stTwo.eventCounts "presence.update" = some 1
     ∧ lookupA stOne.eventCounts "presence.update" = some 0
     ∧ lookupA stOne.eventCounts "call" = some 1
     ∧ syncListeners stOne ["call", "presence.update"] = ["call"]) := by
  refine ⟨fun _ _ _ => rfl, hmr_swap, syncListeners_mem, rfl, rfl, rfl, rfl, rfl, rfl⟩

/-! ### Witnesses: concrete instantiations of the hypothesized claims -/

/-- Concrete client state: mid-first-connect with a pending deferred. -/
def c3S : CState := { initState 5 false with pendingConnect := true }

/-- Concrete client state: reconnecting with four attempts so far. -/
def c4R : CState :=
  { initState 30 false with connState := .reconnecting, reconnectAttempts := 4 }

/-- Concrete client state: retries exhausted. -/
def c4X : CState :=
  { initState 3 false with reconnectAttempts := 5, pendingConnect := true }

/-- C1 witness: the pair (Disconnected, Connecting) emitted by a first
`connect()` call is a valid transition and goes to Connecting. -/
theorem c1_transitions_witness :
    ((ConnState.disconnected, ConnState.connecting).1
        ≠ (ConnState.disconnected, ConnState.connecting).2
      ∧ ¬((ConnState.disconnected, ConnState.connecting).1 = ConnState.connected
          ∧ (ConnState.disconnected, ConnState.connecting).2 = ConnState.connecting))
    ∧ (ConnState.disconnected, ConnState.connecting).2 = ConnState.connecting :=
  ⟨c1_transitions.1 defaultBackoff (.connectCall true) (initState 30 false)
      (ConnState.disconnected, ConnState.connecting) (by decide),
   c1_transitions.2 defaultBackoff 30 false (initState 30 false) (.connectCall true)
      (ConnState.disconnected, ConnState.connecting) Reachable.refl rfl (by decide) rfl⟩

/-- C2 witness: a first `connect()` on a fresh client installs the deferred
and creates one socket; a second call returns the pending promise and
changes nothing. -/
theorem c2_connect_single_flight_witness :
    (step defaultBackoff (.connectCall true) (initState 3 false)).1.pendingConnect = true
    ∧ (step defaultBackoff (.connectCall true) (initState 3 false)).1.socketsCreated
        = (initState 3 false).socketsCreated + 1
    ∧ connectOutcome (step defaultBackoff (.connectCall true) (initState 3 false)).1
        = ConnectOutcome.pendingPromise
    ∧ step defaultBackoff (.connectCall false)
        (step defaultBackoff (.connectCall true) (initState 3 false)).1
        = ((step defaultBackoff (.connectCall true) (initState 3 false)).1, noEff) :=
  have h := c2_connect_single_flight.2.2.2 defaultBackoff (initState 3 false) (by decide)
  ⟨h.1, h.2.1, h.2.2.1, h.2.2.2 false⟩

/-- C3 witness: a forbidden (403) close on a pending first connect finalizes
to Disconnected, schedules nothing, and rejects with the typed error. -/
theorem c3_disconnect_classification_witness :
    (onConnectionClose defaultBackoff (some 403) (c3S, noEff)).1.connState
        = ConnState.disconnected
    ∧ (onConnectionClose defaultBackoff (some 403) (c3S, noEff)).2.scheduledDelay
        = noEff.scheduledDelay
    ∧ (onConnectionClose defaultBackoff (some 403) (c3S, noEff)).2.rejected
        = some (.connErr (parseDisconnectReason (some 403)).message (some 403)
            (parseDisconnectReason (some 403)).recoverable) :=
  have h := c3_disconnect_classification.2.1 defaultBackoff (some 403) c3S noEff
    (Or.inl (by decide))
  ⟨h.1, h.2.1, h.2.2 rfl⟩

/-- C4 witness: an open after Reconnecting reports 4 attempts; the fifth
reconnect waits defaultBackoff(5) = 16000 ms; exhausted retries reject
non-recoverably. -/
theorem c4_attempts_and_backoff_witness :
    (onConnectionOpen (c4R, noEff)).2.reconnectNote = some c4R.reconnectAttempts
    ∧ (scheduleReconnect defaultBackoff (c4R, noEff)).2.scheduledDelay
        = some (defaultBackoff (c4R.reconnectAttempts + 1))
    ∧ (scheduleReconnect defaultBackoff (c4X, noEff)).1.connState = ConnState.disconnected
    ∧ (scheduleReconnect defaultBackoff (c4X, noEff)).2.rejected
        = some (.connErr
            ("Max reconnection attempts (" ++ toString c4X.maxRetries ++ ") exceeded")
            none false) :=
  have h2 := c4_attempts_and_backoff.2.1 (c4R, noEff) rfl
  have h3 := c4_attempts_and_backoff.2.2.1 defaultBackoff (c4R, noEff) (by decide)
  have h6 := c4_attempts_and_backoff.2.2.2.2.2 defaultBackoff (c4X, noEff) (by decide)
  ⟨h2, h3.1, h6.1, h6.2.2 rfl⟩

/-- C5 witness: the startswith fallback fires for literal "help" and token
"helpme". -/
theorem c5_matching_algorithm_witness :
    startsFallback [("help".data)] ("helpme".data) = some ("help".data) :=
  (c5_matching_algorithm.2.2.1 ("help".data) ("helpme".data)).mpr (by decide)

/-- C6 witness: the matcher compiled from ["help", "h"] with prefix "!" has
exactly the four specified components. -/
theorem c6_compile_and_unconditional_witness :
    m5.strings = helpTriggers.filterMap (fun t => match t with
      | .lit s => some (s.map Char.toLower)
      | _ => none)
    ∧ m5.regexes = helpTriggers.filterMap (fun t => match t with
      | .pat r => some r
      | _ => none)
    ∧ m5.set = (if m5.strings.isEmpty then none else some m5.strings)
    ∧ m5.pfxSet = some pfxBang :=
  have h := c6_compile_and_unconditional.2.2.1 pfxBang helpTriggers
    (.explicitSet pfxBang) m5 rfl
  ⟨h.1, h.2.1, h.2.2.1, h.2.2.2⟩

/-- C7 witness: reloading the two-plugin file with the single-plugin set
atomically swaps the registrations for that file. -/
theorem c7_hot_reload_witness :
    (hmrLoad stTwo "plugins/two.js" (.ok [("plugins/two:a", pluginTwoA)])).plugins
      = stTwo.plugins.filter (fun ip => ip.2.file != "plugins/two.js")
        ++ [("plugins/two:a", pluginTwoA)] :=
  c7_hot_reload.2.1 stTwo "plugins/two.js" [("plugins/two:a", pluginTwoA)]
    (by decide) (by decide) (by decide)

/-- C8 witness: the always-throwing plugin's failure is caught and routed to
the error handler tagged with its identity. -/
theorem c8_execution_isolation_witness :
    execute false badPlugin c8Ctx none
      = (⟨badPlugin.pid, none, some "boom"⟩,
         handleError false ("[Plugin:" ++ badPlugin.pid ++ "]") "boom") :=
  c8_execution_isolation.2.1 false badPlugin c8Ctx none "boom" rfl

/-- C9 witness: with registry [3] and persisted ids [2, 3], session 2 is
restored with silent/sync/retry-3 options. -/
theorem c9_sync_sweep_witness :
    (2 : Nat) ≠ 1
    ∧ (RestoreResult.restored = RestoreResult.restored →
        ([3] : List Nat).contains 2 = false
        ∧ (some ⟨2, true, true, 3⟩ : Option RestoreOpts) = some ⟨2, true, true, 3⟩) :=
  c9_sync_sweep.2.1 1 [3] [2, 3] (fun _ => true) 2 RestoreResult.restored
    (some ⟨2, true, true, 3⟩) (by decide)

end KittenWA
